import Mathlib

/-!
# Zadig workflow core: job compiler, workflow controller, job executor

A shallow embedding of the Go sources

* `workflowcontroller/workflow.go` (status aggregation, cancellation registry),
* `workflow/job/job_deploy.go`, `workflow/job/job_testing.go` (job compiler),
* `jobexcutor/core/service/job.go` (sequential step execution),
* `jobexecutor/core/service/step/step_tool_install.go` (cache-or-download),
* `common/repository/mongodb/workflow_task_v4.go` (history archival),
* `tool/nacos/client.go` (paged config listing),

followed by the theorems settling the specification's claims.

Conventions of the embedding.  Go pointers to records are embedded as the
records themselves.  Calls into collaborators (repositories, HTTP, object
storage, subprocesses) are embedded as function parameters returning
`Except`/`Option`, and where the claim counts calls, the embedding records
every call in an explicit trace.  Iteration over a Go map, whose order is
unspecified, is embedded as iteration over an arbitrary list that the
theorems quantify over.  A loop that need not terminate is embedded with a bound
on the number of its iterations, and reports when the bound is used up.
-/

set_option autoImplicit false

namespace Zadig

/-! ## Workflow controller: status aggregation (`workflow.go`, lines 62-97) -/

/-- Modelled from the spec: `config.Status` and its constants live in package
`config`, which is absent from the sources; the spec lists the states
Created, Running, Passed, Failed, Timeout, Cancelled, Skipped.  `other`
stands for any further string value of the Go type. -/
inductive Status
  | created
  | running
  | passed
  | skipped
  | failed
  | timeout
  | cancelled
  | other (tag : String)
  deriving DecidableEq, Repr

/-- Stage of a workflow task; only the field read by the aggregation. -/
structure StageTask where
  Name : String
  Status : Status
  deriving DecidableEq, Repr

/-- The workflow task record (`commonmodels.WorkflowTask`), fields used by the controller. -/
structure WorkflowTask where
  WorkflowName : String
  TaskID : Int
  Status : Status
  Stages : List StageTask
  deriving DecidableEq, Repr

/-- The literal `statusMap` of `updateworkflowStatus`, as its list of entries. -/
def statusMap : List (Status × Int) :=
  [(Status.cancelled, 4), (Status.timeout, 3), (Status.failed, 2),
   (Status.passed, 1), (Status.skipped, 0)]

/-- First loop body: `statusCode, ok := statusMap[j.Status]; if !ok { statusCode = -1 }`. -/
def stageStatusCode (s : Status) : Int :=
  match statusMap.lookup s with
  | some c => c
  | none => -1

/-- Second loop: `if i == 0 || code > workflowStatusCode { workflowStatusCode = code }`,
starting from the zero value of `int`. -/
def workflowStatusCodeLoop : Nat → Int → List Int → Int
  | _, acc, [] => acc
  | i, acc, code :: rest =>
    workflowStatusCodeLoop (i + 1) (if i = 0 ∨ code > acc then code else acc) rest

/-- Third loop: range over the map in the iteration order `iter`, take the first
status whose code equals `code`; the initial value is `StatusRunning`. -/
def pickStatus (iter : List (Status × Int)) (code : Int) : Status :=
  match iter.find? (fun p => decide (code = p.2)) with
  | some p => p.1
  | none => Status.running

/-- Embedding of `updateworkflowStatus`; `iter` is the order in which Go ranges over `statusMap`. -/
def updateworkflowStatus (iter : List (Status × Int)) (workflow : WorkflowTask) : WorkflowTask :=
  let stageStatus := workflow.Stages.map (fun j => stageStatusCode j.Status)
  let workflowStatusCode := workflowStatusCodeLoop 0 0 stageStatus
  { workflow with Status := pickStatus iter workflowStatusCode }

/-- The five terminal statuses the priority order is defined on. -/
def Status.isTerminal : Status → Bool
  | Status.cancelled | Status.timeout | Status.failed | Status.passed | Status.skipped => true
  | _ => false

/-- The priority order as the specification words it:
Cancelled > Timeout > Failed > Passed > Skipped. -/
def specPriority : Status → Nat
  | Status.cancelled => 4
  | Status.timeout => 3
  | Status.failed => 2
  | Status.passed => 1
  | _ => 0

/-! ## Job compiler: shared data model (`commonmodels`, `types/step`)

The model packages are absent from the sources; the records below carry the
fields the compiler sources read or write. -/

/-- Go `error` values are embedded by their message. -/
abbrev Error := String

/-- Modelled from the spec: constant `setting.K8SDeployType` (package absent), the per-host deploy mechanism. -/
def K8SDeployType : String := "k8s"
/-- Modelled from the spec: constant `setting.HelmDeployType` (package absent), the Helm deploy mechanism. -/
def HelmDeployType : String := "helm"
/-- Modelled from the spec: constant `config.SourceRuntime` (package absent). -/
def SourceRuntime : String := "runtime"
/-- Modelled from the spec: constant `config.SourceFromJob` (package absent), images come from an upstream job. -/
def SourceFromJob : String := "fromjob"
/-- Modelled from the spec: job-type tag `config.JobZadigBuild` (package absent). -/
def JobZadigBuild : String := "zadig-build"
/-- Modelled from the spec: job-type tag `config.JobZadigDeploy` (package absent). -/
def JobZadigDeploy : String := "zadig-deploy"
/-- Modelled from the spec: job-type tag `config.JobZadigTesting` (package absent). -/
def JobZadigTesting : String := "zadig-test"
/-- Modelled from the spec: step-type tag `config.StepTools` (package absent). -/
def StepTools : String := "tools"
/-- Modelled from the spec: step-type tag `config.StepGit` (package absent). -/
def StepGit : String := "git"
/-- Modelled from the spec: step-type tag `config.StepShell` (package absent). -/
def StepShell : String := "shell"
/-- Modelled from the spec: step-type tag `config.StepArchive` (package absent). -/
def StepArchive : String := "archive"
/-- Modelled from the spec: step-type tag `config.StepDeploy` (package absent). -/
def StepDeploy : String := "deploy"
/-- Modelled from the spec: step-type tag `config.StepHelmDeploy` (package absent). -/
def StepHelmDeploy : String := "helm_deploy"
/-- Modelled from the spec: cache medium `types.NFSMedium` (package absent), the network-filesystem medium. -/
def NFSMedium : String := "nfs"

/-- Key/value pair of `commonmodels.KeyVal`. -/
structure KeyVal where
  Key : String
  Value : String
  IsCredential : Bool
  deriving DecidableEq, Repr

/-- Repository descriptor `types.Repository`; the compiler only passes it on. -/
structure Repository where
  RepoName : String
  Branch : String
  deriving DecidableEq, Repr

/-- Record `commonmodels.ServiceAndImage`. -/
structure ServiceAndImage where
  ServiceName : String
  ServiceModule : String
  Image : String
  deriving DecidableEq, Repr

/-- Entry of `ZadigBuildJobSpec.ServiceAndBuilds`, fields read by the deploy compiler. -/
structure ServiceAndBuild where
  ServiceName : String
  ServiceModule : String
  Image : String
  deriving DecidableEq, Repr

/-- Record `commonmodels.ZadigBuildJobSpec`. -/
structure ZadigBuildJobSpec where
  ServiceAndBuilds : List ServiceAndBuild
  deriving DecidableEq, Repr

/-- Record `commonmodels.ZadigDeployJobSpec`. -/
structure ZadigDeployJobSpec where
  Env : String
  DeployType : String
  Source : String
  JobName : String
  ServiceAndImages : List ServiceAndImage
  deriving DecidableEq, Repr

/-- Entry of `ZadigTestingJobSpec.TestModules`. -/
structure TestModule where
  TestName : String
  Repos : List Repository
  KeyVals : List KeyVal
  deriving DecidableEq, Repr

/-- Record `commonmodels.ZadigTestingJobSpec`. -/
structure ZadigTestingJobSpec where
  TestModules : List TestModule
  deriving DecidableEq, Repr

/-- The `interface{}` payload of `Job.Spec`: an undecoded document as authored,
or one of the typed specs a previous operation stored. -/
inductive JobSpec
  | raw (payload : String)
  | deploy (spec : ZadigDeployJobSpec)
  | build (spec : ZadigBuildJobSpec)
  | testing (spec : ZadigTestingJobSpec)
  deriving DecidableEq, Repr

/-- Job declaration `commonmodels.Job`. -/
structure Job where
  Name : String
  JobType : String
  Spec : JobSpec
  deriving DecidableEq, Repr

/-- Stage of a workflow template. -/
structure WorkflowStage where
  Name : String
  Jobs : List Job
  deriving DecidableEq, Repr

/-- Workflow template `commonmodels.WorkflowV4`. -/
structure WorkflowV4 where
  Name : String
  Project : String
  Stages : List WorkflowStage
  deriving DecidableEq, Repr

/-- Spec `step.StepDeploySpec`. -/
structure StepDeploySpec where
  Env : String
  ServiceName : String
  ServiceType : String
  ServiceModule : String
  ClusterID : String
  Image : String
  deriving DecidableEq, Repr

/-- Binding `step.ImageAndServiceModule`. -/
structure ImageAndServiceModule where
  ServiceModule : String
  Image : String
  deriving DecidableEq, Repr

/-- Spec `step.StepHelmDeploySpec`. -/
structure StepHelmDeploySpec where
  Env : String
  ServiceName : String
  ServiceType : String
  ClusterID : String
  ImageAndModules : List ImageAndServiceModule
  deriving DecidableEq, Repr

/-- Tool reference `step.Tool`. -/
structure Tool where
  Name : String
  Version : String
  deriving DecidableEq, Repr

/-- Object-storage descriptor `step.S3`. -/
structure S3 where
  Ak : String
  Sk : String
  Endpoint : String
  Bucket : String
  Subfolder : String
  Insecure : Bool
  Provider : Int
  deriving DecidableEq, Repr

/-- Spec `step.StepToolInstallSpec`: `Installs` is what the compiler fills,
the remaining fields are what the executor-side runner reads. -/
structure StepToolInstallSpec where
  Installs : List Tool
  Name : String
  Version : String
  Download : String
  Scripts : List String
  Envs : List String
  S3Storage : S3
  deriving DecidableEq, Repr

/-- Spec `step.StepGitSpec`. -/
structure StepGitSpec where
  Repos : List Repository
  deriving DecidableEq, Repr

/-- Spec `step.StepShellSpec`. -/
structure StepShellSpec where
  Scripts : List String
  deriving DecidableEq, Repr

/-- Upload entry `step.Upload`. -/
structure Upload where
  FilePath : String
  DestinationPath : String
  deriving DecidableEq, Repr

/-- Spec `step.StepArchiveSpec`. -/
structure StepArchiveSpec where
  UploadDetail : List Upload
  S3 : S3
  deriving DecidableEq, Repr

/-- The `interface{}` payload of `StepTask.Spec`. -/
inductive StepSpec
  | absent
  | deploy (spec : StepDeploySpec)
  | helmDeploy (spec : StepHelmDeploySpec)
  | toolInstall (spec : StepToolInstallSpec)
  | git (spec : StepGitSpec)
  | shell (spec : StepShellSpec)
  | archive (spec : StepArchiveSpec)
  deriving DecidableEq, Repr

/-- Compiled step `commonmodels.StepTask`. -/
structure StepTask where
  Name : String
  JobName : String
  StepType : String
  Spec : StepSpec
  deriving DecidableEq, Repr

/-- NFS part of a cluster cache descriptor. -/
structure NFSProperties where
  Subpath : String
  deriving DecidableEq, Repr

/-- Cluster cache descriptor (`clusterInfo.Cache`). -/
structure CacheConfig where
  MediumType : String
  NFSProperties : NFSProperties
  deriving DecidableEq, Repr

/-- Record `commonmodels.JobProperties`. -/
structure JobProperties where
  Timeout : Int
  ResourceRequest : String
  ResReqSpec : String
  CustomEnvs : List KeyVal
  ClusterID : String
  BuildOS : String
  ImageFrom : String
  Registries : List String
  Cache : CacheConfig
  CacheEnable : Bool
  CacheDirType : String
  CacheUserDir : String
  Envs : List KeyVal
  deriving DecidableEq, Repr

/-- Record `commonmodels.JobTaskFreestyleSpec`. -/
structure JobTaskFreestyleSpec where
  Properties : JobProperties
  Steps : List StepTask
  deriving DecidableEq, Repr

/-- The `interface{}` payload of `JobTask.Spec`. -/
inductive JobTaskSpec
  | absent
  | freestyle (spec : JobTaskFreestyleSpec)
  deriving DecidableEq, Repr

/-- Compiled task `commonmodels.JobTask`.  The deploy compiler fills `Steps`;
the testing compiler leaves `Steps` empty and fills `Spec` with a freestyle
spec that holds the steps. -/
structure JobTask where
  Name : String
  JobType : String
  Steps : List StepTask
  Spec : JobTaskSpec
  Timeout : Int
  deriving DecidableEq, Repr

/-- Environment record returned by `commonrepo.NewProductColl().Find`. -/
structure Product where
  ClusterID : String
  deriving DecidableEq, Repr

/-! ## Job compiler: deploy job (`job_deploy.go`) -/

/-- Go-style pair of a compiled task list and an error, together with the
receiver as the call leaves it. -/
structure CompileResult (J : Type) where
  receiver : J
  resp : List JobTask
  err : Option Error

/-- Collaborators of the deploy compiler, none of which is in the sources:
`commonmodels.IToi` at the two target types, the product lookup
`commonrepo.NewProductColl().Find`, and the order in which Go ranges over the
entries of `deployServiceMap`. -/
structure DeployEnv where
  IToiDeploy : JobSpec → Except Error ZadigDeployJobSpec
  IToiBuild : JobSpec → Except Error ZadigBuildJobSpec
  FindProduct : (name envName : String) → Except Error Product
  rangeMap : List (String × List ServiceAndImage) → List (String × List ServiceAndImage)

/-- Receiver `DeployJob`.  `job` is embedded as a record of its own: the loop
over the workflow's stages only reads jobs whose type is the build tag. -/
structure DeployJob where
  job : Job
  workflow : WorkflowV4
  spec : ZadigDeployJobSpec

/-- The zero value `&commonmodels.ZadigDeployJobSpec{}`. -/
def emptyDeploySpec : ZadigDeployJobSpec :=
  { Env := "", DeployType := "", Source := "", JobName := "", ServiceAndImages := [] }

/-- State after `j.job.Spec = j.spec`: both fields hold the same pointer, so every
later mutation of `j.spec` is a mutation of the stored spec as well. -/
def DeployJob.store (j : DeployJob) (spec : ZadigDeployJobSpec) : DeployJob :=
  { j with spec := spec, job := { j.job with Spec := JobSpec.deploy spec } }

/-- Lines 101-107: append one `ServiceAndImage` per build of the upstream job. -/
def DeployJob.appendBuilds (spec : ZadigDeployJobSpec) (builds : List ServiceAndBuild) :
    ZadigDeployJobSpec :=
  { spec with
    ServiceAndImages := spec.ServiceAndImages ++
      builds.map (fun build => ServiceAndImage.mk build.ServiceName build.ServiceModule build.Image) }

/-- Lines 93-108: the inner loop over one stage's jobs; an error leaves the loop
with the spec as mutated so far. -/
def DeployJob.jobsLoop (env : DeployEnv) :
    List Job → ZadigDeployJobSpec → ZadigDeployJobSpec × Option Error
  | [], spec => (spec, none)
  | job :: rest, spec =>
    if job.JobType ≠ JobZadigBuild ∨ job.Name ≠ spec.JobName then
      DeployJob.jobsLoop env rest spec
    else
      match env.IToiBuild job.Spec with
      | Except.error e => (spec, some e)
      | Except.ok buildSpec =>
        DeployJob.jobsLoop env rest (DeployJob.appendBuilds spec buildSpec.ServiceAndBuilds)

/-- Lines 92-109: the outer loop over the workflow's stages. -/
def DeployJob.stagesLoop (env : DeployEnv) :
    List WorkflowStage → ZadigDeployJobSpec → ZadigDeployJobSpec × Option Error
  | [], spec => (spec, none)
  | stage :: rest, spec =>
    match DeployJob.jobsLoop env stage.Jobs spec with
    | (spec1, some e) => (spec1, some e)
    | (spec1, none) => DeployJob.stagesLoop env rest spec1

/-- Lines 90-110: `if j.spec.Source == config.SourceFromJob { ... }`. -/
def DeployJob.resolveUpstream (env : DeployEnv) (workflow : WorkflowV4)
    (spec : ZadigDeployJobSpec) : ZadigDeployJobSpec × Option Error :=
  if spec.Source = SourceFromJob then DeployJob.stagesLoop env workflow.Stages spec
  else (spec, none)

/-- Lines 113-131: the task built for one entry in the per-host branch. -/
def DeployJob.k8sTask (jobName : String) (spec : ZadigDeployJobSpec) (product : Product)
    (deploy : ServiceAndImage) : JobTask :=
  { Name := jobName ++ "-" ++ deploy.ServiceName ++ "-" ++ deploy.ServiceModule
    JobType := JobZadigDeploy
    Steps := [
      { Name := deploy.ServiceName ++ "-deploy"
        JobName := jobName ++ "-" ++ deploy.ServiceName ++ "-" ++ deploy.ServiceModule
        StepType := StepDeploy
        Spec := StepSpec.deploy
          { Env := spec.Env
            ServiceName := deploy.ServiceName
            ServiceType := K8SDeployType
            ServiceModule := deploy.ServiceModule
            ClusterID := product.ClusterID
            Image := deploy.Image } }]
    Spec := JobTaskSpec.absent
    Timeout := 0 }

/-- Line 137: `m[k] = append(m[k], v)` on a map kept as its list of entries. -/
def mapAppend (m : List (String × List ServiceAndImage)) (k : String) (v : ServiceAndImage) :
    List (String × List ServiceAndImage) :=
  match m with
  | [] => [(k, [v])]
  | (k1, vs) :: rest =>
    if k1 = k then (k1, vs ++ [v]) :: rest else (k1, vs) :: mapAppend rest k v

/-- Lines 135-138: build `deployServiceMap` from the service/image list. -/
def DeployJob.deployServiceMap (deploys : List ServiceAndImage) :
    List (String × List ServiceAndImage) :=
  deploys.foldl (fun m deploy => mapAppend m deploy.ServiceName deploy) []

/-- Lines 140-164: the task built for one map entry in the Helm branch. -/
def DeployJob.helmTask (jobName : String) (spec : ZadigDeployJobSpec) (product : Product)
    (serviceName : String) (deploys : List ServiceAndImage) : JobTask :=
  { Name := jobName ++ "-" ++ serviceName
    JobType := JobZadigDeploy
    Steps := [
      { Name := serviceName ++ "-deploy"
        JobName := jobName ++ "-" ++ serviceName
        StepType := StepHelmDeploy
        Spec := StepSpec.helmDeploy
          { Env := spec.Env
            ServiceName := serviceName
            ServiceType := HelmDeployType
            ClusterID := product.ClusterID
            ImageAndModules :=
              deploys.map (fun deploy => ImageAndServiceModule.mk deploy.ServiceModule deploy.Image) } }]
    Spec := JobTaskSpec.absent
    Timeout := 0 }

/-- Embedding of `DeployJob.ToJobs` (lines 76-170). -/
def DeployJob.ToJobs (env : DeployEnv) (j : DeployJob) (_taskID : Int) : CompileResult DeployJob :=
  match env.IToiDeploy j.job.Spec with
  | Except.error e => ⟨{ j with spec := emptyDeploySpec }, [], some e⟩
  | Except.ok spec0 =>
    match env.FindProduct j.workflow.Project spec0.Env with
    | Except.error e => ⟨j.store spec0, [], some e⟩
    | Except.ok product =>
      match DeployJob.resolveUpstream env j.workflow spec0 with
      | (spec1, some e) => ⟨j.store spec1, [], some e⟩
      | (spec1, none) =>
        let respK8s :=
          if spec1.DeployType = K8SDeployType then
            spec1.ServiceAndImages.map (DeployJob.k8sTask j.job.Name spec1 product)
          else []
        let respHelm :=
          if spec1.DeployType = HelmDeployType then
            (env.rangeMap (DeployJob.deployServiceMap spec1.ServiceAndImages)).map
              (fun entry => DeployJob.helmTask j.job.Name spec1 product entry.1 entry.2)
          else []
        ⟨j.store spec1, respK8s ++ respHelm, none⟩

/-- A decoder that accepts exactly payloads already of deploy shape. -/
def sampleIToiDeploy : JobSpec → Except Error ZadigDeployJobSpec
  | JobSpec.deploy spec => Except.ok spec
  | _ => Except.error "cannot decode deploy spec"

/-- A decoder that accepts exactly payloads already of build shape. -/
def sampleIToiBuild : JobSpec → Except Error ZadigBuildJobSpec
  | JobSpec.build spec => Except.ok spec
  | _ => Except.error "cannot decode build spec"

/-- A sample environment: every product lives on cluster `c1`, the map is ranged in reverse. -/
def sampleDeployEnv : DeployEnv :=
  { IToiDeploy := sampleIToiDeploy
    IToiBuild := sampleIToiBuild
    FindProduct := fun _ _ => Except.ok ⟨"c1"⟩
    rangeMap := List.reverse }

/-- The service/image list of the spec's example: services A with modules m1, m2 and B with m1. -/
def sampleServiceAndImages : List ServiceAndImage :=
  [⟨"A", "m1", "a-m1:1"⟩, ⟨"B", "m1", "b-m1:1"⟩, ⟨"A", "m2", "a-m2:1"⟩]

/-- A sample deploy job of the given deploy type and source over an empty workflow. -/
def sampleDeployJob (deployType source : String) : DeployJob :=
  { job :=
      { Name := "deploy"
        JobType := JobZadigDeploy
        Spec := JobSpec.deploy
          { Env := "dev", DeployType := deployType, Source := source, JobName := "build"
            ServiceAndImages := sampleServiceAndImages } }
    workflow := { Name := "wf", Project := "proj", Stages := [] }
    spec := emptyDeploySpec }

/-- A workflow whose only build job is named `compile`. -/
def sampleWorkflowWithoutUpstream : WorkflowV4 :=
  { Name := "wf", Project := "proj"
    Stages := [
      { Name := "build"
        Jobs := [ { Name := "compile", JobType := JobZadigBuild,
                    Spec := JobSpec.build { ServiceAndBuilds := [⟨"A", "m1", "a-m1:2"⟩] } } ] },
      { Name := "deploy", Jobs := [ (sampleDeployJob K8SDeployType SourceFromJob).job ] } ] }


/-! ## Job compiler: testing job (`job_testing.go`) -/

/-- Tool declared by a test definition (`testingInfo.PreTest.Installs`). -/
structure Item where
  Name : String
  Version : String
  deriving DecidableEq, Repr

/-- Record `commonmodels.PreTest`, fields read by the compiler. -/
structure PreTest where
  ImageID : String
  ResReq : String
  ResReqSpec : String
  Envs : List KeyVal
  ClusterID : String
  ImageFrom : String
  Installs : List Item
  deriving DecidableEq, Repr

/-- Test definition `commonmodels.Testing`, fields read by the compiler. -/
structure Testing where
  Name : String
  Timeout : Int
  PreTest : PreTest
  Repos : List Repository
  Scripts : String
  TestReportPath : String
  ArtifactPaths : List String
  CacheEnable : Bool
  CacheDirType : String
  CacheUserDir : String
  deriving DecidableEq, Repr

/-- Record returned by `commonrepo.NewBasicImageColl().Find`. -/
structure BasicImage where
  Value : String
  deriving DecidableEq, Repr

/-- Record returned by `commonrepo.NewK8SClusterColl().Get`. -/
structure K8SCluster where
  Cache : CacheConfig
  deriving DecidableEq, Repr

/-- Record returned by `commonrepo.NewS3StorageColl().FindDefault`. -/
structure S3Storage where
  Ak : String
  Sk : String
  Endpoint : String
  Bucket : String
  Subfolder : String
  Insecure : Bool
  Provider : Int
  deriving DecidableEq, Repr

/-- Collaborators of the testing compiler, none of which is in the sources: the
decoder `commonmodels.IToi`, the repository lookups, the helpers of package `job`
defined outside `job_testing.go`, `rand.String` (indexed by the number of earlier
calls), `path.Join` and `configbase.SystemAddress`. -/
structure TestingEnv where
  IToiTesting : JobSpec → Except Error ZadigTestingJobSpec
  FindDefaultS3 : Except Error S3Storage
  FindTesting : (name productName : String) → Except Error Testing
  FindBasicImage : (imageID : String) → Except Error BasicImage
  ListRegistryNamespaces : Except Error (List String)
  GetCluster : (clusterID : String) → Except Error K8SCluster
  mergeRepos : List Repository → List Repository → List Repository
  renderKeyVals : List KeyVal → List KeyVal → List KeyVal
  renderRepos : List Repository → List Repository → List Repository
  replaceWrapLine : String → String
  renderEnv : String → List KeyVal → String
  modelS3toS3 : S3Storage → S3
  getReposVariables : List Repository → List KeyVal
  jobNameFormat : String → String
  randString : (call : Nat) → (n : Nat) → String
  pathJoin : List String → String
  SystemAddress : String

/-- Receiver `TestingJob`. -/
structure TestingJob where
  job : Job
  workflow : WorkflowV4
  spec : ZadigTestingJobSpec

/-- The zero value `&commonmodels.ZadigTestingJobSpec{}`. -/
def emptyTestingSpec : ZadigTestingJobSpec :=
  { TestModules := [] }

/-- State after `j.job.Spec = j.spec`. -/
def TestingJob.store (j : TestingJob) (spec : ZadigTestingJobSpec) : TestingJob :=
  { j with spec := spec, job := { j.job with Spec := JobSpec.testing spec } }

/-- Lines 101-109, for one module of the receiver: the first override module of
the same name is merged in, then the inner loop breaks. -/
def TestingJob.mergeModule (env : TestingEnv) (argsModules : List TestModule)
    (testing : TestModule) : TestModule :=
  match argsModules.find? (fun argsTesting => decide (testing.TestName = argsTesting.TestName)) with
  | some argsTesting =>
    { testing with
      Repos := env.mergeRepos testing.Repos argsTesting.Repos
      KeyVals := env.renderKeyVals argsTesting.KeyVals testing.KeyVals }
  | none => testing

/-- Embedding of `TestingJob.MergeArgs` (lines 89-113): the receiver after the
call and the returned error. -/
def TestingJob.MergeArgs (env : TestingEnv) (j : TestingJob) (args : Job) :
    TestingJob × Option Error :=
  if j.job.Name = args.Name ∧ j.job.JobType = args.JobType then
    match env.IToiTesting j.job.Spec with
    | Except.error e => ({ j with spec := emptyTestingSpec }, some e)
    | Except.ok spec =>
      match env.IToiTesting args.Spec with
      | Except.error e => (j.store spec, some e)
      | Except.ok argsSpec =>
        (j.store { spec with
          TestModules := spec.TestModules.map (TestingJob.mergeModule env argsSpec.TestModules) },
          none)
  else (j, none)

/-- Embedding of `getTestingJobVariables` (lines 276-288). -/
def getTestingJobVariables (env : TestingEnv) (repos : List Repository) (taskID : Int)
    (project workflowName : String) : List KeyVal :=
  env.getReposVariables repos ++
    [ { Key := "TASK_ID", Value := toString taskID, IsCredential := false },
      { Key := "PROJECT", Value := project, IsCredential := false },
      { Key := "WORKFLOW", Value := workflowName, IsCredential := false },
      { Key := "CI", Value := "true", IsCredential := false },
      { Key := "ZADIG", Value := "true", IsCredential := false },
      { Key := "BUILD_URL",
        Value := env.SystemAddress ++ "/v1/projects/detail/" ++ project ++ "/pipelines/custom/" ++
          workflowName ++ "/" ++ toString taskID,
        IsCredential := false } ]

/-- The zero value of `step.S3`. -/
def emptyS3 : S3 :=
  { Ak := "", Sk := "", Endpoint := "", Bucket := "", Subfolder := "", Insecure := false,
    Provider := 0 }

/-- Lines 162-190: the properties of one compiled testing task. -/
def TestingJob.properties (env : TestingEnv) (workflow : WorkflowV4) (taskID : Int)
    (testing : TestModule) (testingInfo : Testing) (basicImage : BasicImage)
    (registries : List String) (clusterInfo : K8SCluster) : JobProperties :=
  let props0 : JobProperties :=
    { Timeout := testingInfo.Timeout
      ResourceRequest := testingInfo.PreTest.ResReq
      ResReqSpec := testingInfo.PreTest.ResReqSpec
      CustomEnvs := env.renderKeyVals testing.KeyVals testingInfo.PreTest.Envs
      ClusterID := testingInfo.PreTest.ClusterID
      BuildOS := basicImage.Value
      ImageFrom := testingInfo.PreTest.ImageFrom
      Registries := registries
      Cache := { MediumType := "", NFSProperties := { Subpath := "" } }
      CacheEnable := false
      CacheDirType := ""
      CacheUserDir := ""
      Envs := [] }
  let props1 : JobProperties :=
    if clusterInfo.Cache.MediumType = "" then { props0 with CacheEnable := false }
    else
      { props0 with
        Cache := clusterInfo.Cache
        CacheEnable := testingInfo.CacheEnable
        CacheDirType := testingInfo.CacheDirType
        CacheUserDir := testingInfo.CacheUserDir }
  let props2 : JobProperties :=
    { props1 with
      Envs := props1.CustomEnvs ++
        getTestingJobVariables env testing.Repos taskID workflow.Project workflow.Name }
  if props2.CacheEnable = true ∧ props2.Cache.MediumType = NFSMedium then
    { props2 with
      CacheUserDir := env.renderEnv props2.CacheUserDir props2.Envs
      Cache :=
        { props2.Cache with
          NFSProperties := { Subpath := env.renderEnv props2.Cache.NFSProperties.Subpath props2.Envs } } }
  else props2

/-- Lines 192-264: the steps appended to `jobTaskSpec.Steps` for one module.

The last step is built at lines 249-257 from the slice `uploads` as it stands at
line 248, that is empty; `step.StepArchiveSpec` is a struct value, so the spec
stored in the step keeps that empty slice.  The loop of lines 258-263 appends to
the local variable `uploads` only, which is not read again. -/
def TestingJob.steps (env : TestingEnv) (workflow : WorkflowV4) (taskID : Int)
    (defaultS3 : S3Storage) (jobTaskName : String) (testing : TestModule)
    (testingInfo : Testing) : List StepTask :=
  let tools : List Tool := testingInfo.PreTest.Installs.map (fun tool => Tool.mk tool.Name tool.Version)
  let toolInstallStep : StepTask :=
    { Name := testing.TestName ++ "-" ++ "tool-install"
      JobName := jobTaskName
      StepType := StepTools
      Spec := StepSpec.toolInstall
        { Installs := tools, Name := "", Version := "", Download := "", Scripts := [], Envs := [],
          S3Storage := emptyS3 } }
  let gitStep : StepTask :=
    { Name := testing.TestName ++ "-git"
      JobName := jobTaskName
      StepType := StepGit
      Spec := StepSpec.git { Repos := env.renderRepos testing.Repos testingInfo.Repos } }
  let shellStep : StepTask :=
    { Name := testing.TestName ++ "-shell"
      JobName := jobTaskName
      StepType := StepShell
      Spec := StepSpec.shell
        { Scripts := (env.replaceWrapLine testingInfo.Scripts).splitOn "\n" } }
  let htmlSteps : List StepTask :=
    if testingInfo.TestReportPath.utf8ByteSize > 0 then
      [ { Name := testing.TestName ++ "-archive-html-report"
          JobName := jobTaskName
          StepType := StepArchive
          Spec := StepSpec.archive
            { UploadDetail :=
                [ { FilePath := testingInfo.TestReportPath
                    DestinationPath := env.pathJoin [workflow.Name, toString taskID, "test"] } ]
              S3 := env.modelS3toS3 defaultS3 } } ]
    else []
  let uploads : List Upload := []
  let archiveStep : StepTask :=
    { Name := testing.TestName ++ "-ar"
      JobName := jobTaskName
      StepType := StepArchive
      Spec := StepSpec.archive { UploadDetail := uploads, S3 := env.modelS3toS3 defaultS3 } }
  let _uploads : List Upload :=
    uploads ++ testingInfo.ArtifactPaths.map (fun artifact =>
      { FilePath := artifact
        DestinationPath := env.pathJoin [workflow.Name, toString taskID, "artifact"] })
  [toolInstallStep, gitStep, shellStep] ++ htmlSteps ++ [archiveStep]

/-- Lines 143-266: one iteration of the loop over the test modules; `call` counts
the earlier calls of `rand.String`. -/
def TestingJob.compileModule (env : TestingEnv) (jobName : String) (workflow : WorkflowV4)
    (taskID : Int) (defaultS3 : S3Storage) (call : Nat) (testing : TestModule) :
    Except Error JobTask :=
  match env.FindTesting testing.TestName "" with
  | Except.error e => Except.error ("find testing: " ++ testing.TestName ++ " error: " ++ e)
  | Except.ok testingInfo =>
    match env.FindBasicImage testingInfo.PreTest.ImageID with
    | Except.error e =>
      Except.error ("find basic image: " ++ testingInfo.PreTest.ImageID ++ " error: " ++ e)
    | Except.ok basicImage =>
      match env.ListRegistryNamespaces with
      | Except.error e => Except.error ("list registries error: " ++ e)
      | Except.ok registries =>
        match env.GetCluster testingInfo.PreTest.ClusterID with
        | Except.error e => Except.error e
        | Except.ok clusterInfo =>
          let name := env.jobNameFormat
            (testing.TestName ++ "-" ++ jobName ++ "-" ++ env.randString call 5)
          Except.ok
            { Name := name
              JobType := JobZadigTesting
              Steps := []
              Spec := JobTaskSpec.freestyle
                { Properties :=
                    TestingJob.properties env workflow taskID testing testingInfo basicImage
                      registries clusterInfo
                  Steps := TestingJob.steps env workflow taskID defaultS3 name testing testingInfo }
              Timeout := testingInfo.Timeout }

/-- Lines 142-267: the loop over the test modules; an error returns the tasks
appended so far together with the error. -/
def TestingJob.modulesLoop (env : TestingEnv) (jobName : String) (workflow : WorkflowV4)
    (taskID : Int) (defaultS3 : S3Storage) :
    Nat → List TestModule → List JobTask → List JobTask × Option Error
  | _, [], resp => (resp, none)
  | call, testing :: rest, resp =>
    match TestingJob.compileModule env jobName workflow taskID defaultS3 call testing with
    | Except.error e => (resp, some e)
    | Except.ok jobTask =>
      TestingJob.modulesLoop env jobName workflow taskID defaultS3 (call + 1) rest (resp ++ [jobTask])

/-- Embedding of `TestingJob.ToJobs` (lines 127-270). -/
def TestingJob.ToJobs (env : TestingEnv) (j : TestingJob) (taskID : Int) :
    CompileResult TestingJob :=
  match env.IToiTesting j.job.Spec with
  | Except.error e => ⟨{ j with spec := emptyTestingSpec }, [], some e⟩
  | Except.ok spec =>
    match env.FindDefaultS3 with
    | Except.error e => ⟨j.store spec, [], some e⟩
    | Except.ok defaultS3 =>
      match TestingJob.modulesLoop env j.job.Name j.workflow taskID defaultS3 0 spec.TestModules [] with
      | (resp, some e) => ⟨j.store spec, resp, some e⟩
      | (resp, none) => ⟨j.store spec, resp, none⟩

/-- The steps a compiled task carries: its own `Steps` when it has no freestyle
spec (deploy tasks), the freestyle spec's `Steps` otherwise (testing tasks). -/
def JobTask.stepList (task : JobTask) : List StepTask :=
  match task.Spec with
  | JobTaskSpec.freestyle spec => spec.Steps
  | JobTaskSpec.absent => task.Steps

/-- The upload list of a step, empty for a step that is no archive step. -/
def StepTask.uploads (step : StepTask) : List Upload :=
  match step.Spec with
  | StepSpec.archive spec => spec.UploadDetail
  | _ => []

/-- A decoder that accepts exactly payloads already of testing shape. -/
def sampleIToiTesting : JobSpec → Except Error ZadigTestingJobSpec
  | JobSpec.testing spec => Except.ok spec
  | _ => Except.error "cannot decode testing spec"

/-- A sample test definition with one tool, a report path and two artifact paths. -/
def sampleTesting : Testing :=
  { Name := "unit"
    Timeout := 60
    PreTest :=
      { ImageID := "img", ResReq := "low", ResReqSpec := "", Envs := [], ClusterID := "c1",
        ImageFrom := "koderover", Installs := [⟨"go", "1.19"⟩] }
    Repos := []
    Scripts := "go test ./..."
    TestReportPath := "report.html"
    ArtifactPaths := ["out/junit.xml", "out/cover.txt"]
    CacheEnable := false
    CacheDirType := ""
    CacheUserDir := "" }

/-- A sample environment in which every lookup succeeds; test `smoke` declares no
report path, every other test is `sampleTesting`. -/
def sampleTestingEnv : TestingEnv :=
  { IToiTesting := sampleIToiTesting
    FindDefaultS3 := Except.ok
      { Ak := "ak", Sk := "sk", Endpoint := "s3", Bucket := "b", Subfolder := "", Insecure := true,
        Provider := 0 }
    FindTesting := fun name _ =>
      if name = "smoke" then Except.ok { sampleTesting with Name := "smoke", TestReportPath := "" }
      else Except.ok { sampleTesting with Name := name }
    FindBasicImage := fun _ => Except.ok ⟨"focal"⟩
    ListRegistryNamespaces := Except.ok []
    GetCluster := fun _ => Except.ok ⟨{ MediumType := "", NFSProperties := { Subpath := "" } }⟩
    mergeRepos := fun a b => a ++ b
    renderKeyVals := fun a b => a ++ b
    renderRepos := fun a b => a ++ b
    replaceWrapLine := fun s => s
    renderEnv := fun s _ => s
    modelS3toS3 := fun s => ⟨s.Ak, s.Sk, s.Endpoint, s.Bucket, s.Subfolder, s.Insecure, s.Provider⟩
    getReposVariables := fun _ => []
    jobNameFormat := fun s => s
    randString := fun _ _ => "abcde"
    pathJoin := fun parts => "/".intercalate parts
    SystemAddress := "http://zadig" }

/-- A sample testing job with the modules `unit` and `smoke`. -/
def sampleTestingJob : TestingJob :=
  { job :=
      { Name := "test"
        JobType := JobZadigTesting
        Spec := JobSpec.testing
          { TestModules := [⟨"unit", [], [⟨"K", "v", false⟩]⟩, ⟨"smoke", [], []⟩] } }
    workflow := { Name := "wf", Project := "proj", Stages := [] }
    spec := emptyTestingSpec }

/-- The property C7 states of one test module and the task compiled for it. -/
def TestingJob.StepsAsSpecified (env : TestingEnv) (testing : TestModule) (task : JobTask) : Prop :=
  ∃ testingInfo, env.FindTesting testing.TestName "" = Except.ok testingInfo ∧
    task.JobType = JobZadigTesting ∧
    task.stepList.map (fun s => (s.Name, s.StepType)) =
      [(testing.TestName ++ "-tool-install", StepTools), (testing.TestName ++ "-git", StepGit),
        (testing.TestName ++ "-shell", StepShell)] ++
      (if testingInfo.TestReportPath = "" then []
        else [(testing.TestName ++ "-archive-html-report", StepArchive)]) ++
      [(testing.TestName ++ "-ar", StepArchive)] ∧
    task.stepList.head?.map (fun s => s.Spec) = some (StepSpec.toolInstall
      { Installs := testingInfo.PreTest.Installs.map (fun tool => Tool.mk tool.Name tool.Version)
        Name := "", Version := "", Download := "", Scripts := [], Envs := []
        S3Storage := emptyS3 }) ∧
    task.stepList.length = (if testingInfo.TestReportPath = "" then 4 else 5) ∧
    ∀ s ∈ task.stepList, s.JobName = task.Name


/-! ## Workflow controller: cancellation registry (`workflow.go`, lines 15, 33-43) -/

/-- A value held by the process-wide `cancelChannelMap`: a `context.CancelFunc`,
identified by the number of its trigger, or a value of another dynamic type. -/
inductive RegistryValue
  | cancelFunc (trigger : Nat)
  | other (tag : String)
  deriving DecidableEq, Repr

/-- The `sync.Map` `cancelChannelMap` as its list of entries; `Load` is `List.lookup`. -/
abbrev CancelRegistry := List (String × RegistryValue)

/-- The key `fmt.Sprintf("%s-%d", workflowName, id)`. -/
def cancelKey (workflowName : String) (id : Int) : String :=
  workflowName ++ "-" ++ toString id

/-- What a call of `CancelWorkflowTask` leaves behind: the returned error, the
triggers it invoked, in order, and the registry after the call. -/
structure CancelOutcome where
  err : Option Error
  invoked : List Nat
  registry : CancelRegistry
  deriving DecidableEq, Repr

/-- Embedding of `CancelWorkflowTask` (lines 33-43). -/
def CancelWorkflowTask (registry : CancelRegistry) (workflowName : String) (id : Int) :
    CancelOutcome :=
  match registry.lookup (cancelKey workflowName id) with
  | none =>
    { err := some ("no mactched task found, id: " ++ toString id ++ ", workflow name: " ++
        workflowName)
      invoked := []
      registry := registry }
  | some (RegistryValue.cancelFunc f) => { err := none, invoked := [f], registry := registry }
  | some (RegistryValue.other _) =>
    { err := some ("cancel func type mismatched, id: " ++ toString id ++ ", workflow name: " ++
        workflowName)
      invoked := []
      registry := registry }

/-- A sample registry with two running tasks and one entry of a foreign type. -/
def sampleRegistry : CancelRegistry :=
  [("wf-1", RegistryValue.cancelFunc 10), ("wf-2", RegistryValue.cancelFunc 20),
   ("other-1", RegistryValue.other "chan")]

namespace Executor

/-! ## Job executor: sequential step execution (`jobexcutor/core/service/job.go`) -/

/-- Step descriptor of a job context (`meta.Step`): name, step-type tag, spec payload. -/
structure StepInfo where
  Name : String
  StepType : String
  Spec : String
  deriving DecidableEq, Repr

/-- Job context `meta.JobContext`, fields read by the executor. -/
structure JobContext where
  Workspace : String
  Envs : List String
  SecretEnvs : List String
  Paths : String
  Steps : List StepInfo
  deriving DecidableEq, Repr

/-- Receiver `Job` of the executor. -/
structure Job where
  Ctx : JobContext
  ActiveWorkspace : String
  deriving DecidableEq, Repr

/-- Collaborators of `Job.Run`, none of which is in the sources: `config.Home`,
`config.DockerHost`, and package `step`.  `NewShellStep i` is the error, if any,
of the call `step.NewShellStep(ctx, j.ActiveWorkspace, j.getUserEnvs(), j.Ctx.SecretEnvs)`
made for the step at position `i`, and `runStep i` the error, if any, of running
the instance it returned; the arguments of both calls are determined by the job
and by `i`. -/
structure ExecutorWorld where
  Home : String
  DockerHost : String
  NewShellStep : (index : Nat) → Option Error
  runStep : (index : Nat) → Option Error

/-- Embedding of `Job.getUserEnvs` (lines 79-94): the environment list, and the
job with `Ctx.Paths` rewritten. -/
def Job.getUserEnvs (w : ExecutorWorld) (j : Job) : List String × Job :=
  let paths := j.Ctx.Paths.replace "$HOME" w.Home
  ([ "CI=true", "ZADIG=true", "HOME=" ++ w.Home, "WORKSPACE=" ++ j.ActiveWorkspace ] ++
      [ "PATH=" ++ paths ] ++ [ "DOCKER_HOST=" ++ w.DockerHost ] ++ j.Ctx.Envs ++ j.Ctx.SecretEnvs,
    { j with Ctx := { j.Ctx with Paths := paths } })

/-- A call the executor makes on package `step`, for the step at position `index`. -/
inductive StepEvent
  | construct (index : Nat)
  | run (index : Nat)
  deriving DecidableEq, Repr

/-- How `Job.Run` ends: it returns an error value (`none` for `nil`), or it calls
`Run` on the nil interface value of `stepInstance`, which panics. -/
inductive RunOutcome
  | returned (err : Option Error)
  | nilDereference
  deriving DecidableEq, Repr

/-- Result of `Job.Run`: the receiver after the call, the calls made, the outcome. -/
structure RunResult where
  job : Job
  trace : List StepEvent
  outcome : RunOutcome
  deriving DecidableEq, Repr

/-- The loop of `Job.Run` (lines 97-110) from position `index` on.  `stepInstance`
is declared inside the loop body, so it is nil whenever the switch matches no case. -/
def Job.runLoop (w : ExecutorWorld) : Nat → List StepInfo → Job → List StepEvent → RunResult
  | _, [], j, trace => { job := j, trace := trace, outcome := RunOutcome.returned none }
  | index, stepInfo :: rest, j, trace =>
    if stepInfo.StepType = "shell" then
      match w.NewShellStep index with
      | some e =>
        { job := (j.getUserEnvs w).2, trace := trace ++ [StepEvent.construct index],
          outcome := RunOutcome.returned (some e) }
      | none =>
        match w.runStep index with
        | some e =>
          { job := (j.getUserEnvs w).2
            trace := trace ++ [StepEvent.construct index, StepEvent.run index]
            outcome := RunOutcome.returned (some e) }
        | none =>
          Job.runLoop w (index + 1) rest (j.getUserEnvs w).2
            (trace ++ [StepEvent.construct index, StepEvent.run index])
    else { job := j, trace := trace, outcome := RunOutcome.nilDereference }

/-- Embedding of `Job.Run` (lines 96-112). -/
def Job.Run (w : ExecutorWorld) (j : Job) : RunResult :=
  Job.runLoop w 0 j.Ctx.Steps j []

/-- The error of the step at position `index`: that of its construction, or else
that of running it. -/
def ExecutorWorld.stepError (w : ExecutorWorld) (index : Nat) : Option Error :=
  match w.NewShellStep index with
  | some e => some e
  | none => w.runStep index

/-- The calls made for the steps at positions `0` to `k - 1` when each succeeds. -/
def completedTrace (k : Nat) : List StepEvent :=
  (List.range k).flatMap (fun i => [StepEvent.construct i, StepEvent.run i])

/-- A sample world in which the step at position 1 constructs and then fails to run. -/
def sampleExecutorWorld : ExecutorWorld :=
  { Home := "/root", DockerHost := "", NewShellStep := fun _ => none
    runStep := fun i => if i = 1 then some "exit status 1" else none }

/-- A sample job of three shell steps. -/
def sampleExecutorJob : Job :=
  { Ctx :=
      { Workspace := "/ws", Envs := [], SecretEnvs := [], Paths := "$HOME/bin"
        Steps := [⟨"a", "shell", ""⟩, ⟨"b", "shell", ""⟩, ⟨"c", "shell", ""⟩] }
    ActiveWorkspace := "/ws" }

/-! ## Job executor: tool installation (`step_tool_install.go`) -/

/-- A call the tool-install runner makes on a collaborator. -/
inductive IOEvent
  | s3NewClient (endpoint : String) (forcedPathStyle : Bool)
  | s3Download (bucket objectKey dest : String)
  | httpDownload (url dest : String)
  | s3Upload (bucket src objectKey : String)
  | writeFile (path content : String)
  | command (script dir : String) (env : List String)
  deriving DecidableEq, Repr

/-- Whether the call is `httpclient.Download`. -/
def IOEvent.isHttpDownload : IOEvent → Bool
  | IOEvent.httpDownload _ _ => true
  | _ => false

/-- Whether the call is `s3client.Upload`. -/
def IOEvent.isS3Upload : IOEvent → Bool
  | IOEvent.s3Upload _ _ _ => true
  | _ => false

/-- Collaborators of the tool-install runner, none of which is in the sources:
the constants `config.ConstructCachePath`, `config.FilepathParam`,
`setting.ProviderSourceAli`, `config.Home()`, `os.TempDir()`, the joins of `path`
and `filepath`, the script name derived from a fresh UUID, and the effectful
calls, each returning its error if any. -/
structure ToolInstallWorld where
  ConstructCachePath : String
  FilepathParam : String
  ProviderSourceAli : Int
  Home : String
  TempDir : String
  pathJoin : List String → String
  scriptName : String
  NewClient : (endpoint ak sk : String) → (insecure forcedPathStyle : Bool) → Option Error
  s3Download : (bucket objectKey dest : String) → Option Error
  httpDownload : (url dest : String) → Option Error
  s3Upload : (bucket src objectKey : String) → Option Error
  writeFile : (path content : String) → Option Error
  runCommand : (script dir : String) → (env : List String) → Option Error

/-- Receiver `ToolInstallStep`; `spec` is a pointer and may be nil. -/
structure ToolInstallStep where
  spec : Option StepToolInstallSpec
  envs : List String
  secretEnvs : List String
  workspace : String
  deriving DecidableEq, Repr

/-- Embedding of `Environs` (lines 136-151). -/
def Environs (home : String) (envs : List String) : List String :=
  (envs.filter (fun val => decide (val ≠ "") && decide ((val.splitOn "=").length = 2))).map
    (fun val => val.replace "$HOME" home)

/-- Go `strings.TrimLeft(s, "/")`. -/
def trimLeftSlash (s : String) : String :=
  String.mk (s.toList.dropWhile (fun c => c = '/'))

/-- Embedding of `GetObjectPath` (lines 153-160). -/
def GetObjectPath (w : ToolInstallWorld) (name subFolder : String) : String :=
  if subFolder ≠ "" then trimLeftSlash (w.pathJoin [subFolder, name])
  else trimLeftSlash name

/-- Line 68: the cache subfolder derived from the tool's name and version. -/
def cacheSubfolder (w : ToolInstallWorld) (spec : StepToolInstallSpec) : String :=
  w.ConstructCachePath ++ "/" ++ spec.Name ++ "-v" ++ spec.Version

/-- Lines 69-70: the last `/`-separated component of the download URL. -/
def downloadFileName (spec : StepToolInstallSpec) : String :=
  (spec.Download.splitOn "/").getLastD ""

/-- Lines 71-74: path-style addressing unless the provider is Ali. -/
def forcedPathStyle (w : ToolInstallWorld) (spec : StepToolInstallSpec) : Bool :=
  if spec.S3Storage.Provider = w.ProviderSourceAli then false else true

/-- Line 76: the local path the artifact is resolved to. -/
def toolTmpPath (w : ToolInstallWorld) (spec : StepToolInstallSpec) : String :=
  w.pathJoin [w.TempDir, downloadFileName spec]

/-- Line 79: the cache key of the artifact. -/
def toolObjectKey (w : ToolInstallWorld) (spec : StepToolInstallSpec) : String :=
  GetObjectPath w (downloadFileName spec) (cacheSubfolder w spec)

/-- Line 77: the error, if any, of constructing the cache client. -/
def clientError (w : ToolInstallWorld) (spec : StepToolInstallSpec) : Option Error :=
  w.NewClient spec.S3Storage.Endpoint spec.S3Storage.Ak spec.S3Storage.Sk spec.S3Storage.Insecure
    (forcedPathStyle w spec)

/-- Lines 80-84: the error, if any, of fetching the artifact from the cache. -/
def cacheFetchError (w : ToolInstallWorld) (spec : StepToolInstallSpec) : Option Error :=
  w.s3Download spec.S3Storage.Bucket (toolObjectKey w spec) (toolTmpPath w spec)

/-- Lines 88, 100: the error, if any, of the direct HTTP download. -/
def httpError (w : ToolInstallWorld) (spec : StepToolInstallSpec) : Option Error :=
  w.httpDownload spec.Download (toolTmpPath w spec)

/-- Result of the resolution phase: the local path, the calls made, the error returned. -/
structure ResolveResult where
  tmpPath : String
  trace : List IOEvent
  err : Option Error
  deriving DecidableEq, Repr

/-- Lines 66-105: resolve the artifact by cache or by download.  The value
returned by `s3client.Upload` (lines 92-96) is discarded. -/
def ToolInstallStep.resolve (w : ToolInstallWorld) (spec : StepToolInstallSpec) : ResolveResult :=
  if spec.Download ≠ "" then
    let tmpPath := toolTmpPath w spec
    let evClient := IOEvent.s3NewClient spec.S3Storage.Endpoint (forcedPathStyle w spec)
    let evFetch := IOEvent.s3Download spec.S3Storage.Bucket (toolObjectKey w spec) tmpPath
    let evHttp := IOEvent.httpDownload spec.Download tmpPath
    let evUpload := IOEvent.s3Upload spec.S3Storage.Bucket tmpPath (toolObjectKey w spec)
    match clientError w spec with
    | none =>
      match cacheFetchError w spec with
      | none => { tmpPath := tmpPath, trace := [evClient, evFetch], err := none }
      | some _ =>
        match httpError w spec with
        | some e => { tmpPath := tmpPath, trace := [evClient, evFetch, evHttp], err := some e }
        | none =>
          let _ignored := w.s3Upload spec.S3Storage.Bucket tmpPath (toolObjectKey w spec)
          { tmpPath := tmpPath, trace := [evClient, evFetch, evHttp, evUpload], err := none }
    | some _ =>
      match httpError w spec with
      | some e => { tmpPath := tmpPath, trace := [evClient, evHttp], err := some e }
      | none => { tmpPath := tmpPath, trace := [evClient, evHttp], err := none }
  else { tmpPath := "", trace := [], err := none }

/-- Result of the runner: the receiver after the call, the calls made, the error returned. -/
structure ToolInstallResult where
  step : ToolInstallStep
  trace : List IOEvent
  err : Option Error
  deriving DecidableEq, Repr

/-- Embedding of `ToolInstallStep.runIntallationScripts` (lines 46-134); `openProxy`
is the zero value `false` throughout. -/
def ToolInstallStep.runIntallationScripts (w : ToolInstallWorld) (s : ToolInstallStep) :
    ToolInstallResult :=
  match s.spec with
  | none => { step := s, trace := [], err := none }
  | some spec =>
    let envs := s.envs ++ Environs w.Home spec.Envs
    let spec1 : StepToolInstallSpec :=
      if spec.Download ≠ "" then
        { spec with S3Storage := { spec.S3Storage with Subfolder := cacheSubfolder w spec } }
      else spec
    let resolved := ToolInstallStep.resolve w spec
    match resolved.err with
    | some e =>
      { step := { s with spec := some spec1, envs := envs }, trace := resolved.trace, err := some e }
    | none =>
      let realScripts := spec1.Scripts.map (fun command =>
        command.replace w.FilepathParam resolved.tmpPath)
      let spec2 : StepToolInstallSpec := { spec1 with Scripts := realScripts }
      let scripts := ["set -ex"] ++ realScripts
      let file := w.pathJoin [w.TempDir, w.scriptName]
      let content := "\n".intercalate scripts
      let s2 : ToolInstallStep := { s with spec := some spec2, envs := envs }
      match w.writeFile file content with
      | some e =>
        { step := s2, trace := resolved.trace ++ [IOEvent.writeFile file content]
          err := some ("write script file error: " ++ e) }
      | none =>
        { step := s2
          trace := resolved.trace ++
            [IOEvent.writeFile file content, IOEvent.command file s.workspace envs]
          err := w.runCommand file s.workspace envs }

/-- A sample tool-install spec with a download URL. -/
def sampleToolSpec : StepToolInstallSpec :=
  { Installs := [], Name := "go", Version := "1.19"
    Download := "https://dl.example/go1.19.tar.gz"
    Scripts := ["tar -xf ${FILEPATH}"], Envs := ["GOROOT=$HOME/go"]
    S3Storage :=
      { Ak := "ak", Sk := "sk", Endpoint := "s3", Bucket := "cache", Subfolder := ""
        Insecure := true, Provider := 0 } }

/-- A sample world: the cache client is constructed, and the cache fetch, the HTTP
download and the cache upload fail as the three flags say. -/
def sampleToolWorld (fetchFails httpFails uploadFails : Bool) : ToolInstallWorld :=
  { ConstructCachePath := "constructcache", FilepathParam := "${FILEPATH}", ProviderSourceAli := 1
    Home := "/root", TempDir := "/tmp"
    pathJoin := fun parts => "/".intercalate parts
    scriptName := "install_script_1.sh"
    NewClient := fun _ _ _ _ _ => none
    s3Download := fun _ _ _ => if fetchFails then some "no such key" else none
    httpDownload := fun _ _ => if httpFails then some "404" else none
    s3Upload := fun _ _ _ => if uploadFails then some "access denied" else none
    writeFile := fun _ _ => none
    runCommand := fun _ _ _ => none }

/-- A sample tool-install step over `sampleToolSpec`. -/
def sampleToolStep : ToolInstallStep :=
  { spec := some sampleToolSpec, envs := ["CI=true"], secretEnvs := [], workspace := "/ws" }

/-- The trace of a run that starts at position `index` and completes `k` steps. -/
def traceFrom (index k : Nat) : List StepEvent :=
  (List.range k).flatMap (fun i => [StepEvent.construct (index + i), StepEvent.run (index + i)])

end Executor

/-! ## Task repository: history archival (`workflow_task_v4.go`, lines 199-212) -/

/-- Document of the task collection, with the fields the archive query reads or writes
(`workflow_name`, `task_id`, `is_deleted`, `is_archived`). -/
structure TaskRecord where
  WorkflowName : String
  TaskID : Int
  IsDeleted : Bool
  IsArchived : Bool
  deriving DecidableEq, Repr

/-- The errors, if any, the driver returns for `CountDocuments` and for `UpdateMany`;
the driver is not part of the sources. -/
structure MongoDriver where
  countError : Option Error
  updateError : Option Error

/-- The filter `{"workflow_name": workflowName, "is_deleted": false}` of line 200. -/
def TaskRecord.matchesWorkflow (workflowName : String) (r : TaskRecord) : Bool :=
  decide (r.WorkflowName = workflowName) && decide (r.IsDeleted = false)

/-- Line 201: `CountDocuments` over the filter of line 200. -/
def countDocuments (coll : List TaskRecord) (workflowName : String) : Nat :=
  (coll.filter (TaskRecord.matchesWorkflow workflowName)).length

/-- Lines 205-209 on one document: the filter extended by `task_id < bound`, and
`$set is_archived: true` on a match. -/
def archiveRecord (workflowName : String) (bound : Int) (r : TaskRecord) : TaskRecord :=
  if TaskRecord.matchesWorkflow workflowName r = true ∧ r.TaskID < bound then
    { r with IsArchived := true }
  else r

/-- The value an exact integer wraps to in Go `int` arithmetic on a 64-bit platform
(two's complement over the range from `-2^63` to `2^63 - 1`). -/
def wrapInt64 (x : Int) : Int :=
  (x + 9223372036854775808) % 18446744073709551616 - 9223372036854775808

/-- Line 205: the bound `int(count) - remain + 1`, the conversion and both
operations wrapping as Go `int` arithmetic does. -/
def archiveBound (count : Nat) (remain : Int) : Int :=
  wrapInt64 (wrapInt64 (wrapInt64 (count : Int) - remain) + 1)

/-- Embedding of `WorkflowTaskv4Coll.ArchiveHistoryWorkflowTask` (lines 199-212):
the collection after the call and the returned error.  `remain` is a Go `int`.
A failing `UpdateMany` is taken to write nothing. -/
def ArchiveHistoryWorkflowTask (driver : MongoDriver) (coll : List TaskRecord)
    (workflowName : String) (remain : Int) : List TaskRecord × Option Error :=
  match driver.countError with
  | some e => (coll, some e)
  | none =>
    let count := countDocuments coll workflowName
    match driver.updateError with
    | some e => (coll, some e)
    | none => (coll.map (archiveRecord workflowName (archiveBound count remain)), none)

/-- The specification's notion of the `n` most recent tasks of a workflow: a
non-deleted task is among them when fewer than `n` non-deleted tasks of the
workflow have a larger task ID. -/
def amongMostRecent (coll : List TaskRecord) (workflowName : String) (n : Int)
    (r : TaskRecord) : Bool :=
  decide (((coll.countP (fun other =>
    TaskRecord.matchesWorkflow workflowName other && decide (r.TaskID < other.TaskID)) : Nat) : Int) < n)

/-- A driver whose calls succeed. -/
def sampleDriver : MongoDriver :=
  { countError := none, updateError := none }

/-- A sample collection: tasks 1 to 3 of `wf` are deleted, tasks 4 to 6 are live. -/
def sampleSparseCollection : List TaskRecord :=
  [⟨"wf", 1, true, true⟩, ⟨"wf", 2, true, true⟩, ⟨"wf", 3, true, true⟩,
   ⟨"wf", 4, false, false⟩, ⟨"wf", 5, false, false⟩, ⟨"wf", 6, false, false⟩]

/-- A sample collection: tasks 1 to 4 of `wf` are live, next to a task of another workflow. -/
def sampleDenseCollection : List TaskRecord :=
  [⟨"wf", 1, false, false⟩, ⟨"other", 1, false, false⟩, ⟨"wf", 2, false, false⟩,
   ⟨"wf", 3, false, false⟩, ⟨"wf", 4, false, false⟩]

/-! ## Workflow controller: run registration (`workflow.go`, lines 45-60) -/

/-- The operation `sync.Map.Store` on the list of entries: replace the value of an
existing key, or add the entry. -/
def registryStore (registry : CancelRegistry) (key : String) (value : RegistryValue) :
    CancelRegistry :=
  match registry with
  | [] => [(key, value)]
  | (k, v) :: rest =>
    if k = key then (key, value) :: rest else (k, v) :: registryStore rest key value

/-- Collaborators of `workflowCtl.Run`: `RunStages` (defined outside `workflow.go`),
as the stages it leaves behind; the number of the trigger `context.WithCancel`
returns; and the order in which Go ranges over `statusMap`. -/
structure ControllerWorld where
  RunStages : List StageTask → List StageTask
  freshTrigger : Nat
  statusOrder : List (Status × Int)

/-- What `workflowCtl.Run` leaves behind: the task, the registry, and the triggers
it invoked itself (the deferred `cancel()`). -/
structure RunState where
  workflowTask : WorkflowTask
  registry : CancelRegistry
  invoked : List Nat
  deriving DecidableEq, Repr

/-- Embedding of `workflowCtl.Run` (lines 45-60).  `ack` is `updateWorkflowTask`,
whose body is empty; the time stamps are not part of `WorkflowTask` here.  The
function stores the trigger under the task's key and has no statement that
deletes from `cancelChannelMap`. -/
def workflowCtl.Run (w : ControllerWorld) (registry : CancelRegistry) (workflowTask : WorkflowTask) :
    RunState :=
  let running : WorkflowTask := { workflowTask with Status := Status.running }
  let registry1 := registryStore registry (cancelKey running.WorkflowName running.TaskID)
    (RegistryValue.cancelFunc w.freshTrigger)
  let staged : WorkflowTask := { running with Stages := w.RunStages running.Stages }
  { workflowTask := updateworkflowStatus w.statusOrder staged
    registry := registry1
    invoked := [w.freshTrigger] }

/-- A sample controller world: the stages all pass, the trigger has number 30. -/
def sampleControllerWorld : ControllerWorld :=
  { RunStages := fun stages => stages.map (fun s => { s with Status := Status.passed })
    freshTrigger := 30
    statusOrder := statusMap }

/-- A sample task of workflow `wf` with ID 3. -/
def sampleWorkflowTask : WorkflowTask :=
  { WorkflowName := "wf", TaskID := 3, Status := Status.created
    Stages := [⟨"build", Status.created⟩, ⟨"deploy", Status.created⟩] }

/-! ## Job compiler: `Instantiate` and `SetPreset` (`job_deploy.go`, `job_testing.go`) -/

/-- Embedding of `TestingJob.Instantiate` (lines 42-49); `IToiYaml` is
`commonmodels.IToiYaml` at the testing spec, which is not in the sources. -/
def TestingJob.Instantiate (IToiYaml : JobSpec → Except Error ZadigTestingJobSpec)
    (j : TestingJob) : TestingJob × Option Error :=
  match IToiYaml j.job.Spec with
  | Except.error e => ({ j with spec := emptyTestingSpec }, some e)
  | Except.ok spec => (j.store spec, none)

/-- Lines 57-66 of `TestingJob.SetPreset`, for one test module: a failed lookup is
logged and the module is left as it is. -/
def TestingJob.presetModule (env : TestingEnv) (testing : TestModule) : TestModule :=
  match env.FindTesting testing.TestName "" with
  | Except.error _ => testing
  | Except.ok testingInfo =>
    { testing with
      Repos := env.mergeRepos testingInfo.Repos testing.Repos
      KeyVals := env.renderKeyVals testing.KeyVals testingInfo.PreTest.Envs }

/-- Embedding of `TestingJob.SetPreset` (lines 50-69). -/
def TestingJob.SetPreset (env : TestingEnv) (j : TestingJob) : TestingJob × Option Error :=
  match env.IToiTesting j.job.Spec with
  | Except.error e => ({ j with spec := emptyTestingSpec }, some e)
  | Except.ok spec =>
    (j.store { spec with TestModules := spec.TestModules.map (TestingJob.presetModule env) }, none)

/-- Embedding of `DeployJob.Instantiate` (lines 34-41); `IToiYaml` is
`commonmodels.IToiYaml` at the deploy spec, which is not in the sources. -/
def DeployJob.Instantiate (IToiYaml : JobSpec → Except Error ZadigDeployJobSpec)
    (j : DeployJob) : DeployJob × Option Error :=
  match IToiYaml j.job.Spec with
  | Except.error e => ({ j with spec := emptyDeploySpec }, some e)
  | Except.ok spec => (j.store spec, none)

/-- Container of a service revision, as read by `DeployJob.SetPreset`. -/
structure Container where
  Name : String
  deriving DecidableEq, Repr

/-- Service revision returned by `ListMaxRevisionsByProduct`. -/
structure Service where
  ServiceName : String
  Containers : List Container
  deriving DecidableEq, Repr

/-- Feature record of a project template. -/
structure ProductFeature where
  DeployType : String
  deriving DecidableEq, Repr

/-- Project template returned by `templaterepo.NewProductColl().Find`; the
feature pointer may be nil. -/
structure TemplateProduct where
  ProductFeature : Option ProductFeature
  deriving DecidableEq, Repr

/-- The two lookups of `DeployJob.SetPreset`, neither of which is in the sources. -/
structure DeployCatalog where
  FindTemplateProduct : (project : String) → Except Error TemplateProduct
  ListMaxRevisionsByProduct : (project : String) → Except Error (List Service)

/-- Embedding of `DeployJob.SetPreset` (lines 43-74). -/
def DeployJob.SetPreset (env : DeployEnv) (catalog : DeployCatalog) (j : DeployJob) :
    DeployJob × Option Error :=
  match env.IToiDeploy j.job.Spec with
  | Except.error e => ({ j with spec := emptyDeploySpec }, some e)
  | Except.ok spec0 =>
    match catalog.FindTemplateProduct j.workflow.Project with
    | Except.error e => (j.store spec0, some e)
    | Except.ok project =>
      let spec1 : ZadigDeployJobSpec :=
        match project.ProductFeature with
        | some feature => { spec0 with DeployType := feature.DeployType }
        | none => spec0
      match catalog.ListMaxRevisionsByProduct j.workflow.Project with
      | Except.error e => (j.store spec1, some e)
      | Except.ok services =>
        if spec1.Source ≠ SourceRuntime then (j.store spec1, none)
        else
          (j.store { spec1 with
            ServiceAndImages := spec1.ServiceAndImages ++
              services.flatMap (fun service => service.Containers.map (fun container =>
                ServiceAndImage.mk service.ServiceName container.Name "")) },
            none)

/-- A sample environment in which the test definition `smoke` is missing. -/
def sampleTestingEnvWithMissing : TestingEnv :=
  { sampleTestingEnv with
    FindTesting := fun name _ =>
      if name = "smoke" then Except.error "not found"
      else Except.ok { sampleTesting with Name := name, Repos := [⟨"zadig", "main"⟩] } }

/-- A sample catalog: the project deploys with Helm and has one service with two containers. -/
def sampleDeployCatalog : DeployCatalog :=
  { FindTemplateProduct := fun _ => Except.ok ⟨some ⟨HelmDeployType⟩⟩
    ListMaxRevisionsByProduct := fun _ => Except.ok [⟨"A", [⟨"m1"⟩, ⟨"m2"⟩]⟩] }

/-- A workflow with two build jobs named `build`: the first decodes to one build,
the second carries a payload that does not decode. -/
def sampleWorkflowBrokenUpstream : WorkflowV4 :=
  { Name := "wf", Project := "proj"
    Stages := [
      { Name := "build"
        Jobs := [ { Name := "build", JobType := JobZadigBuild,
                    Spec := JobSpec.build { ServiceAndBuilds := [⟨"C", "m1", "c-m1:9"⟩] } } ] },
      { Name := "rebuild"
        Jobs := [ { Name := "build", JobType := JobZadigBuild, Spec := JobSpec.raw "???" } ] } ] }

/-! ## Nacos client: listing configs (`tool/nacos/client.go`, lines 116-150) -/

namespace Nacos

/-- Item of a page of the config listing (the Go type `config`). -/
structure ConfigItem where
  ID : String
  DataID : String
  Group : String
  Content : String
  Format : String
  deriving DecidableEq, Repr

/-- Returned record `types.NacosConfig`. -/
structure NacosConfig where
  DataID : String
  Group : String
  Format : String
  Content : String
  deriving DecidableEq, Repr

/-- Embedding of `getFormat` (lines 186-201).  `toLower` is Go's `strings.ToLower`,
which folds case over all of Unicode and is not part of the sources. -/
def getFormat (toLower : String → String) (format : String) : String :=
  let lower := toLower format
  if lower = "yaml" then "YAML"
  else if lower = "json" then "JSON"
  else if lower = "properties" then "Properties"
  else if lower = "xml" then "XML"
  else if lower = "html" then "HTML"
  else "text"

/-- The request `GET /v1/cs/configs` with the query parameters `pageNo`, `pageSize`
and `tenant` (sent as the decimal strings `strconv.Itoa` yields): the decoded page
items, or the error of the call. -/
abbrev ConfigEndpoint := (pageNo pageSize : Nat) → (tenant : String) → Except Error (List ConfigItem)

/-- Lines 137-144: the record appended for one page item. -/
def toNacosConfig (toLower : String → String) (conf : ConfigItem) : NacosConfig :=
  { DataID := conf.DataID, Group := conf.Group, Format := getFormat toLower conf.Format
    Content := conf.Content }

/-- Result of a bounded run of `ListConfigs`: the page numbers requested, in order,
and the returned value; `none` when the loop is still running after the allowed
number of iterations. -/
structure ListResult where
  requests : List Nat
  outcome : Option (Except Error (List NacosConfig))
  deriving Repr

/-- The loop of `ListConfigs` (lines 122-148), run for at most `fuel` iterations.
The loop body never assigns `pageNum`, so the next iteration starts with the same
page number. -/
def Client.listLoop (toLower : String → String) (get : ConfigEndpoint) (namespaceID : String) :
    (fuel : Nat) → (pageNum : Nat) → (resp : List NacosConfig) → (requests : List Nat) → ListResult
  | 0, _, _, requests => { requests := requests, outcome := none }
  | fuel + 1, pageNum, resp, requests =>
    match get pageNum 20 namespaceID with
    | Except.error e =>
      { requests := requests ++ [pageNum]
        outcome := some (Except.error ("list nacos config failed: " ++ e)) }
    | Except.ok pageItems =>
      if pageItems.length < 20 then
        { requests := requests ++ [pageNum]
          outcome := some (Except.ok (resp ++ pageItems.map (toNacosConfig toLower))) }
      else
        Client.listLoop toLower get namespaceID fuel pageNum
          (resp ++ pageItems.map (toNacosConfig toLower)) (requests ++ [pageNum])

/-- Embedding of `Client.ListConfigs` (lines 116-150), run for at most `fuel` iterations. -/
def Client.ListConfigs (toLower : String → String) (get : ConfigEndpoint) (namespaceID : String)
    (fuel : Nat) : ListResult :=
  Client.listLoop toLower get namespaceID fuel 1 [] []

/-- A server that answers each page request correctly over the configs `store`
holds per namespace: page `pageNo` of size `pageSize`, pages counted from 1. -/
def pagedServer (store : String → List ConfigItem) : ConfigEndpoint :=
  fun pageNo pageSize tenant =>
    Except.ok (((store tenant).drop ((pageNo - 1) * pageSize)).take pageSize)

/-- A sample namespace content of `n` configs. -/
def sampleConfigs (n : Nat) : List ConfigItem :=
  (List.range n).map (fun i => ConfigItem.mk (toString i) ("app-" ++ toString i) "DEFAULT_GROUP" "" "yaml")

end Nacos

/-- A sample executor job whose first step is a tool-install step, as the testing
compiler emits it. -/
def Executor.sampleToolsFirstJob : Executor.Job :=
  { Ctx :=
      { Workspace := "/ws", Envs := [], SecretEnvs := [], Paths := "$HOME/bin"
        Steps := [⟨"unit-tool-install", "tools", ""⟩, ⟨"unit-shell", "shell", ""⟩] }
    ActiveWorkspace := "/ws" }

/-- The property C16 states of one test module and the task compiled for it: the
module's test definition is found, and the environment variable list of the
task's properties is the module's key/values rendered against the definition's
environment, followed by the source-repo variables of the module's repos,
followed by the six fixed entries, none of them a credential. -/
def TestingJob.EnvsAsSpecified (env : TestingEnv) (workflow : WorkflowV4) (taskID : Int)
    (testing : TestModule) (task : JobTask) : Prop :=
  ∃ testingInfo freestyle, env.FindTesting testing.TestName "" = Except.ok testingInfo ∧
    task.Spec = JobTaskSpec.freestyle freestyle ∧
    freestyle.Properties.Envs =
      env.renderKeyVals testing.KeyVals testingInfo.PreTest.Envs ++
        env.getReposVariables testing.Repos ++
        [ { Key := "TASK_ID", Value := toString taskID, IsCredential := false },
          { Key := "PROJECT", Value := workflow.Project, IsCredential := false },
          { Key := "WORKFLOW", Value := workflow.Name, IsCredential := false },
          { Key := "CI", Value := "true", IsCredential := false },
          { Key := "ZADIG", Value := "true", IsCredential := false },
          { Key := "BUILD_URL",
            Value := env.SystemAddress ++ "/v1/projects/detail/" ++ workflow.Project ++
              "/pipelines/custom/" ++ workflow.Name ++ "/" ++ toString taskID,
            IsCredential := false } ]

/-! ## Theorems -/

theorem stageStatusCode_of_terminal (s : Status) (h : s.isTerminal = true) :
    stageStatusCode s = (specPriority s : Int) := by
  cases s <;> first | rfl | simp [Status.isTerminal] at h

theorem workflowStatusCodeLoop_succ (i : Nat) (acc : Int) (l : List Int) :
    workflowStatusCodeLoop (i + 1) acc l ∈ acc :: l ∧
      acc ≤ workflowStatusCodeLoop (i + 1) acc l ∧
      ∀ x ∈ l, x ≤ workflowStatusCodeLoop (i + 1) acc l := by
  induction l generalizing i acc with
  | nil => simp [workflowStatusCodeLoop]
  | cons c rest ih =>
    simp only [workflowStatusCodeLoop, Nat.succ_ne_zero, false_or]
    obtain ⟨hm, hle, hall⟩ := ih (i + 1) (if c > acc then c else acc)
    refine ⟨?_, ?_, ?_⟩
    · split_ifs at hm ⊢ with hc
      · simp only [List.mem_cons] at hm ⊢; tauto
      · simp only [List.mem_cons] at hm ⊢; tauto
    · split_ifs at hle ⊢ with hc <;> omega
    · intro x hx
      rcases List.mem_cons.mp hx with rfl | hx
      · split_ifs at hle ⊢ with hc <;> omega
      · exact hall x hx

theorem workflowStatusCodeLoop_max (l : List Int) (hne : l ≠ []) :
    workflowStatusCodeLoop 0 0 l ∈ l ∧ ∀ x ∈ l, x ≤ workflowStatusCodeLoop 0 0 l := by
  cases l with
  | nil => exact absurd rfl hne
  | cons c rest =>
    simp only [workflowStatusCodeLoop, true_or, if_true]
    obtain ⟨hm, hle, hall⟩ := workflowStatusCodeLoop_succ 0 c rest
    refine ⟨hm, ?_⟩
    intro x hx
    rcases List.mem_cons.mp hx with rfl | hx
    · exact hle
    · exact hall x hx

theorem pickStatus_of_perm (iter : List (Status × Int)) (hiter : iter.Perm statusMap)
    (s : Status) (h : s.isTerminal = true) :
    pickStatus iter (specPriority s : Int) = s := by
  unfold pickStatus
  have hmem : (s, (specPriority s : Int)) ∈ iter := by
    rw [hiter.mem_iff]
    cases s <;> first | (simp [statusMap, specPriority]; done) | simp [Status.isTerminal] at h
  cases hf : iter.find? (fun p => decide ((specPriority s : Int) = p.2)) with
  | none =>
    rw [List.find?_eq_none] at hf
    exact absurd (hf _ hmem) (by simp)
  | some p =>
    have hp := List.find?_some hf
    have hpm : p ∈ statusMap := hiter.mem_iff.mp (List.mem_of_find?_eq_some hf)
    simp only [decide_eq_true_eq] at hp
    simp only [statusMap, List.mem_cons, List.mem_singleton, List.not_mem_nil, or_false] at hpm
    rcases hpm with rfl | rfl | rfl | rfl | rfl <;>
      cases s <;> first | rfl | (simp [specPriority] at hp; done) | simp [Status.isTerminal] at h

/-- C1: for a non-empty stage list whose statuses are all among Cancelled, Timeout,
Failed, Passed, Skipped, `updateworkflowStatus` (whatever order Go ranges over the
status map in) sets the workflow status to a status that occurs among the stages
and whose priority, in the order Cancelled > Timeout > Failed > Passed > Skipped,
is at least that of every stage; the other fields of the task are untouched. -/
theorem updateworkflowStatus_highest_priority (iter : List (Status × Int))
    (workflow : WorkflowTask) (hiter : iter.Perm statusMap)
    (hne : workflow.Stages ≠ [])
    (hterm : ∀ j ∈ workflow.Stages, j.Status.isTerminal = true) :
    (∃ j ∈ workflow.Stages, j.Status = (updateworkflowStatus iter workflow).Status) ∧
      (∀ j ∈ workflow.Stages,
        specPriority j.Status ≤ specPriority (updateworkflowStatus iter workflow).Status) ∧
      (updateworkflowStatus iter workflow).Stages = workflow.Stages := by
  have hne' : workflow.Stages.map (fun j => stageStatusCode j.Status) ≠ [] := by
    simpa using hne
  obtain ⟨hm, hall⟩ := workflowStatusCodeLoop_max _ hne'
  obtain ⟨j, hj, hjc⟩ := List.mem_map.mp hm
  have hst : (updateworkflowStatus iter workflow).Status = j.Status := by
    show pickStatus iter _ = _
    rw [← hjc, stageStatusCode_of_terminal _ (hterm j hj)]
    exact pickStatus_of_perm iter hiter _ (hterm j hj)
  refine ⟨⟨j, hj, hst.symm⟩, ?_, rfl⟩
  intro k hk
  rw [hst]
  have h1 := hall _ (List.mem_map.mpr ⟨k, hk, rfl⟩)
  rw [← hjc, stageStatusCode_of_terminal _ (hterm j hj),
    stageStatusCode_of_terminal _ (hterm k hk)] at h1
  exact_mod_cast h1

theorem updateworkflowStatus_highest_priority_witness :
    (∃ j ∈ [StageTask.mk "build" Status.passed, StageTask.mk "test" Status.failed,
          StageTask.mk "deploy" Status.skipped],
        j.Status = (updateworkflowStatus statusMap.reverse
          ⟨"wf", 7, Status.created, [StageTask.mk "build" Status.passed,
            StageTask.mk "test" Status.failed, StageTask.mk "deploy" Status.skipped]⟩).Status) ∧
      (∀ j ∈ [StageTask.mk "build" Status.passed, StageTask.mk "test" Status.failed,
          StageTask.mk "deploy" Status.skipped],
        specPriority j.Status ≤ specPriority (updateworkflowStatus statusMap.reverse
          ⟨"wf", 7, Status.created, [StageTask.mk "build" Status.passed,
            StageTask.mk "test" Status.failed, StageTask.mk "deploy" Status.skipped]⟩).Status) ∧
      (updateworkflowStatus statusMap.reverse
          ⟨"wf", 7, Status.created, [StageTask.mk "build" Status.passed,
            StageTask.mk "test" Status.failed, StageTask.mk "deploy" Status.skipped]⟩).Stages =
        [StageTask.mk "build" Status.passed, StageTask.mk "test" Status.failed,
          StageTask.mk "deploy" Status.skipped] :=
  updateworkflowStatus_highest_priority statusMap.reverse
    ⟨"wf", 7, Status.created, [StageTask.mk "build" Status.passed,
      StageTask.mk "test" Status.failed, StageTask.mk "deploy" Status.skipped]⟩
    (List.reverse_perm _) (by simp) (by simp [Status.isTerminal])

/-! ### Deploy compiler -/

theorem mapAppend_keys_mem (m : List (String × List ServiceAndImage)) (k : String)
    (v : ServiceAndImage) (x : String) :
    x ∈ (mapAppend m k v).map Prod.fst ↔ x ∈ m.map Prod.fst ∨ x = k := by
  induction m with
  | nil => simp [mapAppend]
  | cons p rest ih =>
    obtain ⟨k1, vs⟩ := p
    unfold mapAppend
    split_ifs with h
    · subst h
      simp only [List.map_cons, List.mem_cons]
      tauto
    · simp only [List.map_cons, List.mem_cons, ih]
      tauto

theorem mapAppend_keys_nodup (m : List (String × List ServiceAndImage)) (k : String)
    (v : ServiceAndImage) (h : (m.map Prod.fst).Nodup) :
    ((mapAppend m k v).map Prod.fst).Nodup := by
  induction m with
  | nil => simp [mapAppend]
  | cons p rest ih =>
    obtain ⟨k1, vs⟩ := p
    unfold mapAppend
    simp only [List.map_cons, List.nodup_cons] at h
    split_ifs with hk
    · simpa using h
    · simp only [List.map_cons, List.nodup_cons]
      refine ⟨?_, ih h.2⟩
      intro hmem
      rcases (mapAppend_keys_mem rest k v k1).mp hmem with h1 | h1
      · exact h.1 h1
      · exact hk h1

theorem mapAppend_mem (m : List (String × List ServiceAndImage)) (k : String)
    (v : ServiceAndImage) (hnd : (m.map Prod.fst).Nodup)
    (p : String × List ServiceAndImage) (hp : p ∈ mapAppend m k v) :
    (p.1 ≠ k ∧ p ∈ m) ∨
      (p.1 = k ∧ ((∃ vs, (k, vs) ∈ m ∧ p.2 = vs ++ [v]) ∨ (k ∉ m.map Prod.fst ∧ p.2 = [v]))) := by
  induction m with
  | nil =>
    simp only [mapAppend, List.mem_singleton] at hp
    subst hp
    simp
  | cons q rest ih =>
    obtain ⟨k1, vs⟩ := q
    simp only [List.map_cons, List.nodup_cons] at hnd
    unfold mapAppend at hp
    split_ifs at hp with hk
    · subst hk
      rcases List.mem_cons.mp hp with rfl | hp
      · right
        exact ⟨rfl, Or.inl ⟨vs, List.mem_cons_self _ _, rfl⟩⟩
      · left
        refine ⟨?_, List.mem_cons_of_mem _ hp⟩
        intro hpk
        exact hnd.1 (hpk ▸ List.mem_map_of_mem Prod.fst hp)
    · rcases List.mem_cons.mp hp with rfl | hp
      · left
        exact ⟨hk, List.mem_cons_self _ _⟩
      · rcases ih hnd.2 hp with ⟨h1, h2⟩ | ⟨h1, h2⟩
        · left
          exact ⟨h1, List.mem_cons_of_mem _ h2⟩
        · right
          refine ⟨h1, ?_⟩
          rcases h2 with ⟨ws, hws, hpw⟩ | ⟨hnot, hpw⟩
          · exact Or.inl ⟨ws, List.mem_cons_of_mem _ hws, hpw⟩
          · right
            refine ⟨?_, hpw⟩
            simp only [List.map_cons, List.mem_cons, not_or]
            exact ⟨fun h => hk h.symm, hnot⟩

theorem deployServiceMap_inv (deploys : List ServiceAndImage) :
    ((DeployJob.deployServiceMap deploys).map Prod.fst).Nodup ∧
      (∀ p ∈ DeployJob.deployServiceMap deploys,
        p.2 = deploys.filter (fun d => decide (d.ServiceName = p.1))) ∧
      (∀ k, k ∈ (DeployJob.deployServiceMap deploys).map Prod.fst ↔
        k ∈ deploys.map (fun d => d.ServiceName)) := by
  induction deploys using List.reverseRecOn with
  | nil => simp [DeployJob.deployServiceMap]
  | append_singleton P d ih =>
    obtain ⟨hnd, hval, hkeys⟩ := ih
    have hstep : DeployJob.deployServiceMap (P ++ [d]) =
        mapAppend (DeployJob.deployServiceMap P) d.ServiceName d := by
      simp [DeployJob.deployServiceMap, List.foldl_append]
    rw [hstep]
    refine ⟨mapAppend_keys_nodup _ _ _ hnd, ?_, ?_⟩
    · intro p hp
      rcases mapAppend_mem _ _ _ hnd p hp with ⟨h1, h2⟩ | ⟨h1, h2⟩
      · rw [hval p h2]
        simp [List.filter_append, List.filter_cons, Ne.symm h1]
      · rcases h2 with ⟨vs, hvs, hpv⟩ | ⟨hnot, hpv⟩
        · have := hval _ hvs
          simp only at this
          rw [hpv, this, h1]
          simp [List.filter_append, List.filter_cons]
        · rw [hpv, h1]
          have hnone : P.filter (fun x => decide (x.ServiceName = d.ServiceName)) = [] := by
            rw [List.filter_eq_nil_iff]
            intro a ha hda
            simp only [decide_eq_true_eq] at hda
            apply hnot
            rw [hkeys]
            exact List.mem_map.mpr ⟨a, ha, hda⟩
          simp [List.filter_append, List.filter_cons, hnone]
    · intro k
      rw [mapAppend_keys_mem, hkeys]
      simp only [List.map_append, List.map_cons, List.map_nil, List.mem_append,
        List.mem_singleton]

theorem deployServiceMap_perm (deploys : List ServiceAndImage) :
    (DeployJob.deployServiceMap deploys).Perm
      (((deploys.map (fun d => d.ServiceName)).dedup).map
        (fun s => (s, deploys.filter (fun d => decide (d.ServiceName = s))))) := by
  obtain ⟨hnd, hval, hkeys⟩ := deployServiceMap_inv deploys
  have hshape : DeployJob.deployServiceMap deploys =
      ((DeployJob.deployServiceMap deploys).map Prod.fst).map
        (fun s => (s, deploys.filter (fun d => decide (d.ServiceName = s)))) := by
    rw [List.map_map]
    conv_lhs => rw [← List.map_id (DeployJob.deployServiceMap deploys)]
    apply List.map_congr_left
    intro p hp
    simp only [id, Function.comp]
    rw [← hval p hp]
  rw [hshape]
  apply List.Perm.map
  rw [List.perm_ext_iff_of_nodup hnd (List.nodup_dedup _)]
  intro k
  rw [hkeys, List.mem_dedup]

/-- C3: when the spec decodes, the product is found and upstream resolution ends
without error with service/image list `L` (the spec's own list whenever the source
is not an upstream job), a Helm-type deploy job compiles, up to the order of the
tasks, to one task per distinct service name `s` of `L`, named `<job name>-<s>`,
holding exactly one helm-deploy step whose bindings are the (module, image) pairs
of the entries of `L` with service name `s`, in the order of `L`. -/
theorem DeployJob.ToJobs_helm (env : DeployEnv) (j : DeployJob) (taskID : Int)
    (spec0 spec1 : ZadigDeployJobSpec) (product : Product)
    (hrange : ∀ m, (env.rangeMap m).Perm m)
    (hdec : env.IToiDeploy j.job.Spec = Except.ok spec0)
    (hprod : env.FindProduct j.workflow.Project spec0.Env = Except.ok product)
    (hup : DeployJob.resolveUpstream env j.workflow spec0 = (spec1, none))
    (hhelm : spec1.DeployType = HelmDeployType) :
    (DeployJob.ToJobs env j taskID).err = none ∧
      (DeployJob.ToJobs env j taskID).resp.Perm
        (((spec1.ServiceAndImages.map (fun d => d.ServiceName)).dedup).map (fun s =>
          { Name := j.job.Name ++ "-" ++ s
            JobType := JobZadigDeploy
            Steps := [
              { Name := s ++ "-deploy"
                JobName := j.job.Name ++ "-" ++ s
                StepType := StepHelmDeploy
                Spec := StepSpec.helmDeploy
                  { Env := spec1.Env
                    ServiceName := s
                    ServiceType := HelmDeployType
                    ClusterID := product.ClusterID
                    ImageAndModules :=
                      (spec1.ServiceAndImages.filter (fun d => decide (d.ServiceName = s))).map
                        (fun d => ImageAndServiceModule.mk d.ServiceModule d.Image) } }]
            Spec := JobTaskSpec.absent
            Timeout := 0 })) ∧
      (spec0.Source ≠ SourceFromJob → spec1.ServiceAndImages = spec0.ServiceAndImages) := by
  have hne : ¬ (spec1.DeployType = K8SDeployType) := by
    rw [hhelm]; decide
  refine ⟨?_, ?_, ?_⟩
  · simp only [DeployJob.ToJobs, hdec, hprod, hup]
  · simp only [DeployJob.ToJobs, hdec, hprod, hup, hne, hhelm, if_true, if_false,
      List.nil_append]
    refine ((hrange _).map _).trans ?_
    refine ((deployServiceMap_perm spec1.ServiceAndImages).map _).trans ?_
    rw [List.map_map]
    exact List.Perm.of_eq rfl
  · intro hsrc
    simp only [DeployJob.resolveUpstream, hsrc, if_false, Prod.mk.injEq] at hup
    rw [hup.1]

theorem DeployJob.ToJobs_helm_witness :
    (DeployJob.ToJobs sampleDeployEnv (sampleDeployJob HelmDeployType SourceRuntime) 1).err = none ∧
      (DeployJob.ToJobs sampleDeployEnv (sampleDeployJob HelmDeployType SourceRuntime) 1).resp.Perm
        (((sampleServiceAndImages.map (fun d => d.ServiceName)).dedup).map (fun s =>
          { Name := "deploy" ++ "-" ++ s
            JobType := JobZadigDeploy
            Steps := [
              { Name := s ++ "-deploy"
                JobName := "deploy" ++ "-" ++ s
                StepType := StepHelmDeploy
                Spec := StepSpec.helmDeploy
                  { Env := "dev"
                    ServiceName := s
                    ServiceType := HelmDeployType
                    ClusterID := "c1"
                    ImageAndModules :=
                      (sampleServiceAndImages.filter (fun d => decide (d.ServiceName = s))).map
                        (fun d => ImageAndServiceModule.mk d.ServiceModule d.Image) } }]
            Spec := JobTaskSpec.absent
            Timeout := 0 })) ∧
      (SourceRuntime ≠ SourceFromJob → sampleServiceAndImages = sampleServiceAndImages) :=
  DeployJob.ToJobs_helm sampleDeployEnv (sampleDeployJob HelmDeployType SourceRuntime) 1
    { Env := "dev", DeployType := HelmDeployType, Source := SourceRuntime, JobName := "build"
      ServiceAndImages := sampleServiceAndImages }
    { Env := "dev", DeployType := HelmDeployType, Source := SourceRuntime, JobName := "build"
      ServiceAndImages := sampleServiceAndImages }
    ⟨"c1"⟩ (fun m => List.reverse_perm m) rfl rfl (by decide) rfl

/-- C4: when the spec decodes, the product is found and upstream resolution ends
without error with service/image list `L` (the spec's own list whenever the source
is not an upstream job), a per-host (k8s) deploy job compiles to exactly one task
per entry of `L`, in the order of `L`; the task of an entry is named
`<job name>-<service>-<module>` and holds exactly one deploy step carrying the
entry's service, module and image, the job's environment and the product's cluster ID. -/
theorem DeployJob.ToJobs_k8s (env : DeployEnv) (j : DeployJob) (taskID : Int)
    (spec0 spec1 : ZadigDeployJobSpec) (product : Product)
    (hdec : env.IToiDeploy j.job.Spec = Except.ok spec0)
    (hprod : env.FindProduct j.workflow.Project spec0.Env = Except.ok product)
    (hup : DeployJob.resolveUpstream env j.workflow spec0 = (spec1, none))
    (hk8s : spec1.DeployType = K8SDeployType) :
    (DeployJob.ToJobs env j taskID).err = none ∧
      (DeployJob.ToJobs env j taskID).resp =
        spec1.ServiceAndImages.map (fun d =>
          { Name := j.job.Name ++ "-" ++ d.ServiceName ++ "-" ++ d.ServiceModule
            JobType := JobZadigDeploy
            Steps := [
              { Name := d.ServiceName ++ "-deploy"
                JobName := j.job.Name ++ "-" ++ d.ServiceName ++ "-" ++ d.ServiceModule
                StepType := StepDeploy
                Spec := StepSpec.deploy
                  { Env := spec1.Env
                    ServiceName := d.ServiceName
                    ServiceType := K8SDeployType
                    ServiceModule := d.ServiceModule
                    ClusterID := product.ClusterID
                    Image := d.Image } }]
            Spec := JobTaskSpec.absent
            Timeout := 0 }) ∧
      (DeployJob.ToJobs env j taskID).resp.length = spec1.ServiceAndImages.length ∧
      (spec0.Source ≠ SourceFromJob → spec1.ServiceAndImages = spec0.ServiceAndImages) := by
  have hne : ¬ (spec1.DeployType = HelmDeployType) := by
    rw [hk8s]; decide
  have hresp : (DeployJob.ToJobs env j taskID).resp =
      spec1.ServiceAndImages.map (DeployJob.k8sTask j.job.Name spec1 product) := by
    have hkh : ¬ (K8SDeployType = HelmDeployType) := by decide
    simp only [DeployJob.ToJobs, hdec, hprod, hup, hne, hkh, hk8s, if_true, if_false,
      List.append_nil]
  refine ⟨?_, ?_, ?_, ?_⟩
  · simp only [DeployJob.ToJobs, hdec, hprod, hup]
  · rw [hresp]; rfl
  · rw [hresp, List.length_map]
  · intro hsrc
    simp only [DeployJob.resolveUpstream, hsrc, if_false, Prod.mk.injEq] at hup
    rw [hup.1]

theorem DeployJob.ToJobs_k8s_witness :
    (DeployJob.ToJobs sampleDeployEnv (sampleDeployJob K8SDeployType SourceRuntime) 1).err = none ∧
      (DeployJob.ToJobs sampleDeployEnv (sampleDeployJob K8SDeployType SourceRuntime) 1).resp =
        sampleServiceAndImages.map (fun d =>
          { Name := "deploy" ++ "-" ++ d.ServiceName ++ "-" ++ d.ServiceModule
            JobType := JobZadigDeploy
            Steps := [
              { Name := d.ServiceName ++ "-deploy"
                JobName := "deploy" ++ "-" ++ d.ServiceName ++ "-" ++ d.ServiceModule
                StepType := StepDeploy
                Spec := StepSpec.deploy
                  { Env := "dev"
                    ServiceName := d.ServiceName
                    ServiceType := K8SDeployType
                    ServiceModule := d.ServiceModule
                    ClusterID := "c1"
                    Image := d.Image } }]
            Spec := JobTaskSpec.absent
            Timeout := 0 }) ∧
      (DeployJob.ToJobs sampleDeployEnv (sampleDeployJob K8SDeployType SourceRuntime) 1).resp.length =
        sampleServiceAndImages.length ∧
      (SourceRuntime ≠ SourceFromJob → sampleServiceAndImages = sampleServiceAndImages) :=
  DeployJob.ToJobs_k8s sampleDeployEnv (sampleDeployJob K8SDeployType SourceRuntime) 1
    { Env := "dev", DeployType := K8SDeployType, Source := SourceRuntime, JobName := "build"
      ServiceAndImages := sampleServiceAndImages }
    { Env := "dev", DeployType := K8SDeployType, Source := SourceRuntime, JobName := "build"
      ServiceAndImages := sampleServiceAndImages }
    ⟨"c1"⟩ rfl rfl (by decide) rfl

theorem DeployJob.jobsLoop_missing (env : DeployEnv) (jobs : List Job)
    (spec : ZadigDeployJobSpec)
    (h : ∀ job ∈ jobs, job.JobType ≠ JobZadigBuild ∨ job.Name ≠ spec.JobName) :
    DeployJob.jobsLoop env jobs spec = (spec, none) := by
  induction jobs with
  | nil => rfl
  | cons job rest ih =>
    have h1 := h job (List.mem_cons_self _ _)
    simp only [DeployJob.jobsLoop, h1, if_true]
    exact ih (fun x hx => h x (List.mem_cons_of_mem _ hx))

theorem DeployJob.stagesLoop_missing (env : DeployEnv) (stages : List WorkflowStage)
    (spec : ZadigDeployJobSpec)
    (h : ∀ stage ∈ stages, ∀ job ∈ stage.Jobs,
      job.JobType ≠ JobZadigBuild ∨ job.Name ≠ spec.JobName) :
    DeployJob.stagesLoop env stages spec = (spec, none) := by
  induction stages with
  | nil => rfl
  | cons stage rest ih =>
    simp only [DeployJob.stagesLoop,
      DeployJob.jobsLoop_missing env stage.Jobs spec (h stage (List.mem_cons_self _ _))]
    exact ih (fun x hx => h x (List.mem_cons_of_mem _ hx))

/-- C8 (as the code behaves): for a deploy job whose source is an upstream job and
whose named upstream build job occurs in no stage of the workflow, `ToJobs` (the
spec decoding and the product being found) returns no error; nothing is appended
to the stored service/image list, and the task list is the one the same job
compiles to over a workflow without stages, that is the tasks of the spec's own
service/image list. -/
theorem DeployJob.ToJobs_missing_upstream (env : DeployEnv) (j : DeployJob) (taskID : Int)
    (spec0 : ZadigDeployJobSpec) (product : Product)
    (hdec : env.IToiDeploy j.job.Spec = Except.ok spec0)
    (hprod : env.FindProduct j.workflow.Project spec0.Env = Except.ok product)
    (hsrc : spec0.Source = SourceFromJob)
    (hmissing : ∀ stage ∈ j.workflow.Stages, ∀ job ∈ stage.Jobs,
      job.JobType ≠ JobZadigBuild ∨ job.Name ≠ spec0.JobName) :
    (DeployJob.ToJobs env j taskID).err = none ∧
      (DeployJob.ToJobs env j taskID).receiver.job.Spec = JobSpec.deploy spec0 ∧
      (DeployJob.ToJobs env j taskID).resp =
        (DeployJob.ToJobs env { j with workflow := { j.workflow with Stages := [] } } taskID).resp := by
  have hup : DeployJob.resolveUpstream env j.workflow spec0 = (spec0, none) := by
    simp only [DeployJob.resolveUpstream, hsrc, if_true]
    exact DeployJob.stagesLoop_missing env _ spec0 hmissing
  have hup2 : DeployJob.resolveUpstream env { j.workflow with Stages := [] } spec0 =
      (spec0, none) := by
    simp only [DeployJob.resolveUpstream, hsrc, if_true, DeployJob.stagesLoop]
  refine ⟨?_, ?_, ?_⟩
  · simp only [DeployJob.ToJobs, hdec, hprod, hup]
  · simp only [DeployJob.ToJobs, hdec, hprod, hup, DeployJob.store]
  · simp only [DeployJob.ToJobs, hdec, hprod, hup, hup2]

theorem DeployJob.ToJobs_missing_upstream_witness :
    (DeployJob.ToJobs sampleDeployEnv
        { sampleDeployJob K8SDeployType SourceFromJob with workflow := sampleWorkflowWithoutUpstream }
        1).err = none ∧
      (DeployJob.ToJobs sampleDeployEnv
        { sampleDeployJob K8SDeployType SourceFromJob with workflow := sampleWorkflowWithoutUpstream }
        1).receiver.job.Spec = JobSpec.deploy
          { Env := "dev", DeployType := K8SDeployType, Source := SourceFromJob, JobName := "build"
            ServiceAndImages := sampleServiceAndImages } ∧
      (DeployJob.ToJobs sampleDeployEnv
        { sampleDeployJob K8SDeployType SourceFromJob with workflow := sampleWorkflowWithoutUpstream }
        1).resp =
        (DeployJob.ToJobs sampleDeployEnv
          { sampleDeployJob K8SDeployType SourceFromJob with
            workflow := { sampleWorkflowWithoutUpstream with Stages := [] } } 1).resp :=
  DeployJob.ToJobs_missing_upstream sampleDeployEnv
    { sampleDeployJob K8SDeployType SourceFromJob with workflow := sampleWorkflowWithoutUpstream }
    1
    { Env := "dev", DeployType := K8SDeployType, Source := SourceFromJob, JobName := "build"
      ServiceAndImages := sampleServiceAndImages }
    ⟨"c1"⟩ rfl rfl rfl (by decide)

/-- C8 (as stated) fails: the sample deploy job takes its images from the upstream
job `build`, no job of the workflow is a build job of that name, and `ToJobs`
returns a task list and no error. -/
theorem DeployJob.ToJobs_missing_upstream_counterexample :
    sampleIToiDeploy (sampleDeployJob K8SDeployType SourceFromJob).job.Spec =
        Except.ok
          { Env := "dev", DeployType := K8SDeployType, Source := SourceFromJob, JobName := "build"
            ServiceAndImages := sampleServiceAndImages } ∧
      (∀ stage ∈ sampleWorkflowWithoutUpstream.Stages, ∀ job ∈ stage.Jobs,
        ¬ (job.JobType = JobZadigBuild ∧ job.Name = "build")) ∧
      (DeployJob.ToJobs sampleDeployEnv
        { sampleDeployJob K8SDeployType SourceFromJob with workflow := sampleWorkflowWithoutUpstream }
        1).err = none ∧
      ((DeployJob.ToJobs sampleDeployEnv
        { sampleDeployJob K8SDeployType SourceFromJob with workflow := sampleWorkflowWithoutUpstream }
        1).resp.map (fun t => t.Name)) = ["deploy-A-m1", "deploy-B-m1", "deploy-A-m2"] := by
  refine ⟨rfl, by decide, rfl, by decide⟩

/-! ### Testing compiler -/

theorem utf8ByteSize_pos_iff (s : String) : s.utf8ByteSize > 0 ↔ s ≠ "" := by
  obtain ⟨l⟩ := s
  cases l with
  | nil => simp [String.utf8ByteSize, String.utf8ByteSize.go]
  | cons c cs =>
    have hc := Char.utf8Size_pos c
    constructor
    · intro _ h
      have := congrArg String.data h
      simp at this
    · intro _
      simp only [String.utf8ByteSize, String.utf8ByteSize.go]
      omega

theorem toolInstall_name (n : String) : n ++ "-" ++ "tool-install" = n ++ "-tool-install" := by
  rw [String.append_assoc]; rfl

theorem TestingJob.compileModule_ok (env : TestingEnv) (jobName : String) (workflow : WorkflowV4)
    (taskID : Int) (defaultS3 : S3Storage) (call : Nat) (testing : TestModule)
    (registries : List String)
    (hreg : env.ListRegistryNamespaces = Except.ok registries)
    (hlook : ∃ testingInfo, env.FindTesting testing.TestName "" = Except.ok testingInfo ∧
      (∃ basicImage, env.FindBasicImage testingInfo.PreTest.ImageID = Except.ok basicImage) ∧
      (∃ clusterInfo, env.GetCluster testingInfo.PreTest.ClusterID = Except.ok clusterInfo)) :
    ∃ task, TestingJob.compileModule env jobName workflow taskID defaultS3 call testing =
        Except.ok task ∧ TestingJob.StepsAsSpecified env testing task := by
  obtain ⟨testingInfo, hfind, ⟨basicImage, himg⟩, ⟨clusterInfo, hcl⟩⟩ := hlook
  refine ⟨_, by simp only [TestingJob.compileModule, hfind, himg, hreg, hcl]; rfl, ?_⟩
  refine ⟨testingInfo, hfind, rfl, ?_, rfl, ?_, ?_⟩
  · by_cases hr : testingInfo.TestReportPath = ""
    · have hz : ¬ (testingInfo.TestReportPath.utf8ByteSize > 0) := by
        rw [utf8ByteSize_pos_iff]; simpa using hr
      simp only [JobTask.stepList, TestingJob.steps, if_pos hr, if_neg hz, toolInstall_name]
      rfl
    · have hz : testingInfo.TestReportPath.utf8ByteSize > 0 :=
        (utf8ByteSize_pos_iff _).mpr hr
      simp only [JobTask.stepList, TestingJob.steps, if_neg hr, if_pos hz, toolInstall_name]
      rfl
  · by_cases hr : testingInfo.TestReportPath = ""
    · have hz : ¬ (testingInfo.TestReportPath.utf8ByteSize > 0) := by
        rw [utf8ByteSize_pos_iff]; simpa using hr
      simp only [JobTask.stepList, TestingJob.steps, if_pos hr, if_neg hz]
      rfl
    · have hz : testingInfo.TestReportPath.utf8ByteSize > 0 :=
        (utf8ByteSize_pos_iff _).mpr hr
      simp only [JobTask.stepList, TestingJob.steps, if_neg hr, if_pos hz]
      rfl
  · intro s hs
    simp only [JobTask.stepList, TestingJob.steps] at hs
    split_ifs at hs <;> simp at hs <;> rcases hs with rfl | rfl | rfl | rfl | rfl <;> rfl

theorem TestingJob.modulesLoop_ok (env : TestingEnv) (jobName : String) (workflow : WorkflowV4)
    (taskID : Int) (defaultS3 : S3Storage) (registries : List String)
    (hreg : env.ListRegistryNamespaces = Except.ok registries)
    (modules : List TestModule) :
    ∀ (call : Nat) (resp : List JobTask),
      (∀ testing ∈ modules, ∃ testingInfo,
        env.FindTesting testing.TestName "" = Except.ok testingInfo ∧
        (∃ basicImage, env.FindBasicImage testingInfo.PreTest.ImageID = Except.ok basicImage) ∧
        (∃ clusterInfo, env.GetCluster testingInfo.PreTest.ClusterID = Except.ok clusterInfo)) →
      ∃ tasks, TestingJob.modulesLoop env jobName workflow taskID defaultS3 call modules resp =
          (resp ++ tasks, none) ∧
        List.Forall₂ (TestingJob.StepsAsSpecified env) modules tasks := by
  induction modules with
  | nil =>
    intro call resp _
    exact ⟨[], by simp [TestingJob.modulesLoop], List.Forall₂.nil⟩
  | cons testing rest ih =>
    intro call resp hlook
    obtain ⟨task, htask, hP⟩ := TestingJob.compileModule_ok env jobName workflow taskID
      defaultS3 call testing registries hreg (hlook testing (List.mem_cons_self _ _))
    obtain ⟨tasks, hloop, hall⟩ := ih (call + 1) (resp ++ [task])
      (fun t ht => hlook t (List.mem_cons_of_mem _ ht))
    refine ⟨task :: tasks, ?_, List.Forall₂.cons hP hall⟩
    simp only [TestingJob.modulesLoop, htask, hloop, List.append_assoc, List.singleton_append]

/-- C7: when the spec decodes and the default object storage, the registries and,
for every test module, its test definition, basic image and cluster are found,
`TestingJob.ToJobs` returns no error and exactly one task per test module, in
module order; the steps of the task of a module (held by the task's freestyle
spec) are, in this order, a tool-install step with one name/version pair per
install of the test definition, a source-fetch step, a shell step, an HTML-report
archive step exactly when the report path is non-empty, and a results archive
step: 5 steps with a report path and 4 without. -/
theorem TestingJob.ToJobs_steps (env : TestingEnv) (j : TestingJob) (taskID : Int)
    (spec : ZadigTestingJobSpec) (defaultS3 : S3Storage) (registries : List String)
    (hdec : env.IToiTesting j.job.Spec = Except.ok spec)
    (hs3 : env.FindDefaultS3 = Except.ok defaultS3)
    (hreg : env.ListRegistryNamespaces = Except.ok registries)
    (hlook : ∀ testing ∈ spec.TestModules, ∃ testingInfo,
      env.FindTesting testing.TestName "" = Except.ok testingInfo ∧
      (∃ basicImage, env.FindBasicImage testingInfo.PreTest.ImageID = Except.ok basicImage) ∧
      (∃ clusterInfo, env.GetCluster testingInfo.PreTest.ClusterID = Except.ok clusterInfo)) :
    (TestingJob.ToJobs env j taskID).err = none ∧
      (TestingJob.ToJobs env j taskID).resp.length = spec.TestModules.length ∧
      List.Forall₂ (TestingJob.StepsAsSpecified env) spec.TestModules
        (TestingJob.ToJobs env j taskID).resp := by
  obtain ⟨tasks, hloop, hall⟩ := TestingJob.modulesLoop_ok env j.job.Name j.workflow taskID
    defaultS3 registries hreg spec.TestModules 0 [] hlook
  simp only [List.nil_append] at hloop
  have hresp : (TestingJob.ToJobs env j taskID).resp = tasks := by
    simp only [TestingJob.ToJobs, hdec, hs3, hloop]
  refine ⟨?_, ?_, ?_⟩
  · simp only [TestingJob.ToJobs, hdec, hs3, hloop]
  · rw [hresp]; exact hall.length_eq.symm
  · rw [hresp]; exact hall

theorem TestingJob.ToJobs_steps_witness :
    (TestingJob.ToJobs sampleTestingEnv sampleTestingJob 7).err = none ∧
      (TestingJob.ToJobs sampleTestingEnv sampleTestingJob 7).resp.length =
        [TestModule.mk "unit" [] [⟨"K", "v", false⟩], TestModule.mk "smoke" [] []].length ∧
      List.Forall₂ (TestingJob.StepsAsSpecified sampleTestingEnv)
        [TestModule.mk "unit" [] [⟨"K", "v", false⟩], TestModule.mk "smoke" [] []]
        (TestingJob.ToJobs sampleTestingEnv sampleTestingJob 7).resp :=
  TestingJob.ToJobs_steps sampleTestingEnv sampleTestingJob 7
    { TestModules := [⟨"unit", [], [⟨"K", "v", false⟩]⟩, ⟨"smoke", [], []⟩] }
    { Ak := "ak", Sk := "sk", Endpoint := "s3", Bucket := "b", Subfolder := "", Insecure := true,
      Provider := 0 }
    [] rfl rfl rfl
    (fun testing _ => by
      by_cases h : testing.TestName = "smoke"
      · exact ⟨{ sampleTesting with Name := "smoke", TestReportPath := "" },
          by simp [sampleTestingEnv, h], ⟨⟨"focal"⟩, rfl⟩, ⟨_, rfl⟩⟩
      · exact ⟨{ sampleTesting with Name := testing.TestName },
          by simp [sampleTestingEnv, h], ⟨⟨"focal"⟩, rfl⟩, ⟨_, rfl⟩⟩)

/-- The last step built for a module never carries an upload entry. -/
theorem TestingJob.steps_last_uploads (env : TestingEnv) (workflow : WorkflowV4) (taskID : Int)
    (defaultS3 : S3Storage) (jobTaskName : String) (testing : TestModule)
    (testingInfo : Testing) :
    (TestingJob.steps env workflow taskID defaultS3 jobTaskName testing testingInfo).getLast?.map
      StepTask.uploads = some [] := by
  simp only [TestingJob.steps, List.getLast?_concat]
  rfl

/-- C2 fails on the code: the sample test definition declares two artifact paths,
every lookup succeeds, and the last step (the results archive step) of each
compiled task carries an empty upload list instead of one entry per path. -/
theorem TestingJob.ToJobs_artifact_uploads_dropped :
    sampleTesting.ArtifactPaths = ["out/junit.xml", "out/cover.txt"] ∧
      (TestingJob.ToJobs sampleTestingEnv sampleTestingJob 7).err = none ∧
      (TestingJob.ToJobs sampleTestingEnv sampleTestingJob 7).resp.map
        (fun task => task.stepList.getLast?.map (fun s => (s.Name, s.StepType, s.uploads))) =
        [some ("unit-ar", StepArchive, []), some ("smoke-ar", StepArchive, [])] := by
  refine ⟨rfl, rfl, by decide⟩

/-- C5: when the override job's name or job type differs from the target job's,
`TestingJob.MergeArgs` returns no error and leaves the receiver, and with it the
target job's stored spec, exactly as it was. -/
theorem TestingJob.MergeArgs_mismatch (env : TestingEnv) (j : TestingJob) (args : Job)
    (h : j.job.Name ≠ args.Name ∨ j.job.JobType ≠ args.JobType) :
    (TestingJob.MergeArgs env j args).2 = none ∧
      (TestingJob.MergeArgs env j args).1.job.Spec = j.job.Spec ∧
      (TestingJob.MergeArgs env j args).1 = j := by
  have hc : ¬ (j.job.Name = args.Name ∧ j.job.JobType = args.JobType) := by
    rcases h with h | h
    · exact fun hh => h hh.1
    · exact fun hh => h hh.2
  simp only [TestingJob.MergeArgs, if_neg hc, and_self]

theorem TestingJob.MergeArgs_mismatch_witness :
    (TestingJob.MergeArgs sampleTestingEnv sampleTestingJob
        { Name := "test", JobType := JobZadigDeploy,
          Spec := JobSpec.testing { TestModules := [⟨"unit", [⟨"r", "main"⟩], []⟩] } }).2 = none ∧
      (TestingJob.MergeArgs sampleTestingEnv sampleTestingJob
        { Name := "test", JobType := JobZadigDeploy,
          Spec := JobSpec.testing { TestModules := [⟨"unit", [⟨"r", "main"⟩], []⟩] } }).1.job.Spec =
        sampleTestingJob.job.Spec ∧
      (TestingJob.MergeArgs sampleTestingEnv sampleTestingJob
        { Name := "test", JobType := JobZadigDeploy,
          Spec := JobSpec.testing { TestModules := [⟨"unit", [⟨"r", "main"⟩], []⟩] } }).1 =
        sampleTestingJob :=
  TestingJob.MergeArgs_mismatch sampleTestingEnv sampleTestingJob
    { Name := "test", JobType := JobZadigDeploy,
      Spec := JobSpec.testing { TestModules := [⟨"unit", [⟨"r", "main"⟩], []⟩] } }
    (Or.inr (by decide))

/-! ### Cancellation registry -/

/-- C6: for every registry, cancelling a pair whose key has no entry returns an
error, invokes no trigger and leaves the registry as it was; cancelling a pair
whose key holds a trigger invokes exactly that trigger, once, and returns
success, the registry again being left as it was. -/
theorem CancelWorkflowTask_spec (registry : CancelRegistry) (workflowName : String) (id : Int) :
    (registry.lookup (cancelKey workflowName id) = none →
        (CancelWorkflowTask registry workflowName id).err ≠ none ∧
        (CancelWorkflowTask registry workflowName id).invoked = [] ∧
        (CancelWorkflowTask registry workflowName id).registry = registry) ∧
      (∀ f, registry.lookup (cancelKey workflowName id) = some (RegistryValue.cancelFunc f) →
        (CancelWorkflowTask registry workflowName id).err = none ∧
        (CancelWorkflowTask registry workflowName id).invoked = [f] ∧
        (CancelWorkflowTask registry workflowName id).registry = registry) := by
  constructor
  · intro h
    simp [CancelWorkflowTask, h]
  · intro f h
    simp [CancelWorkflowTask, h]

theorem CancelWorkflowTask_spec_witness :
    (List.lookup (cancelKey "wf" 3) sampleRegistry = none ∧
        (CancelWorkflowTask sampleRegistry "wf" 3).err ≠ none ∧
        (CancelWorkflowTask sampleRegistry "wf" 3).invoked = [] ∧
        (CancelWorkflowTask sampleRegistry "wf" 3).registry = sampleRegistry) ∧
      (List.lookup (cancelKey "wf" 2) sampleRegistry = some (RegistryValue.cancelFunc 20) ∧
        (CancelWorkflowTask sampleRegistry "wf" 2).err = none ∧
        (CancelWorkflowTask sampleRegistry "wf" 2).invoked = [20] ∧
        (CancelWorkflowTask sampleRegistry "wf" 2).registry = sampleRegistry) :=
  ⟨⟨by decide, (CancelWorkflowTask_spec sampleRegistry "wf" 3).1 (by decide)⟩,
    ⟨by decide, (CancelWorkflowTask_spec sampleRegistry "wf" 2).2 20 (by decide)⟩⟩

namespace Executor

/-! ### Sequential step execution -/

theorem stepError_eq_none (w : ExecutorWorld) (i : Nat) :
    w.stepError i = none ↔ w.NewShellStep i = none ∧ w.runStep i = none := by
  unfold ExecutorWorld.stepError
  cases h : w.NewShellStep i <;> simp

theorem traceFrom_succ (index k : Nat) :
    traceFrom index (k + 1) =
      [StepEvent.construct index, StepEvent.run index] ++ traceFrom (index + 1) k := by
  simp only [traceFrom, List.range_succ_eq_map, List.flatMap_cons, List.flatMap_map,
    Nat.add_zero]
  congr 1
  apply List.flatMap_congr
  intro i _
  simp [Nat.add_assoc, Nat.add_comm 1 i]

theorem runLoop_all_ok (w : ExecutorWorld) (steps : List StepInfo) :
    ∀ (index : Nat) (j : Job) (trace : List StepEvent),
      (∀ s ∈ steps, s.StepType = "shell") →
      (∀ m, m < steps.length → w.stepError (index + m) = none) →
      (Job.runLoop w index steps j trace).outcome = RunOutcome.returned none ∧
        (Job.runLoop w index steps j trace).trace = trace ++ traceFrom index steps.length := by
  induction steps with
  | nil =>
    intro index j trace _ _
    simp [Job.runLoop, traceFrom]
  | cons s rest ih =>
    intro index j trace hshell hok
    have hs : s.StepType = "shell" := hshell s (List.mem_cons_self _ _)
    have h0 := (stepError_eq_none w index).mp (by simpa using hok 0 (by simp))
    have hrest := ih (index + 1) (j.getUserEnvs w).2
      (trace ++ [StepEvent.construct index, StepEvent.run index])
      (fun x hx => hshell x (List.mem_cons_of_mem _ hx))
      (fun m hm => by
        have := hok (m + 1) (by simpa using hm)
        rwa [Nat.add_assoc, Nat.add_comm 1 m])
    simp only [Job.runLoop, hs, if_true, h0.1, h0.2, List.length_cons, traceFrom_succ]
    refine ⟨hrest.1, ?_⟩
    rw [hrest.2, List.append_assoc]

theorem runLoop_first_failure (w : ExecutorWorld) (steps : List StepInfo) :
    ∀ (index : Nat) (j : Job) (trace : List StepEvent) (k : Nat) (e : Error),
      (∀ s ∈ steps, s.StepType = "shell") →
      k < steps.length →
      (∀ m, m < k → w.stepError (index + m) = none) →
      w.stepError (index + k) = some e →
      (Job.runLoop w index steps j trace).outcome = RunOutcome.returned (some e) ∧
        (Job.runLoop w index steps j trace).trace = trace ++ traceFrom index k ++
          (if w.NewShellStep (index + k) = none
            then [StepEvent.construct (index + k), StepEvent.run (index + k)]
            else [StepEvent.construct (index + k)]) := by
  induction steps with
  | nil =>
    intro index j trace k e _ hk
    simp at hk
  | cons s rest ih =>
    intro index j trace k e hshell hk hok hfail
    have hs : s.StepType = "shell" := hshell s (List.mem_cons_self _ _)
    cases k with
    | zero =>
      simp only [Nat.add_zero] at hfail
      unfold ExecutorWorld.stepError at hfail
      cases hc : w.NewShellStep index with
      | some e1 =>
        rw [hc] at hfail
        simp only [Option.some.injEq] at hfail
        subst hfail
        simp [Job.runLoop, hs, hc, traceFrom]
      | none =>
        rw [hc] at hfail
        simp only at hfail
        simp [Job.runLoop, hs, hc, hfail, traceFrom]
    | succ k =>
      have h0 := (stepError_eq_none w index).mp (by simpa using hok 0 (by simp))
      have hrest := ih (index + 1) (j.getUserEnvs w).2
        (trace ++ [StepEvent.construct index, StepEvent.run index]) k e
        (fun x hx => hshell x (List.mem_cons_of_mem _ hx))
        (by simpa using hk)
        (fun m hm => by
          have := hok (m + 1) (by omega)
          rwa [Nat.add_assoc, Nat.add_comm 1 m])
        (by rwa [Nat.add_assoc, Nat.add_comm 1 k])
      have hidx : index + 1 + k = index + (k + 1) := by omega
      rw [hidx] at hrest
      simp only [Job.runLoop, hs, if_true, h0.1, h0.2, traceFrom_succ]
      refine ⟨hrest.1, ?_⟩
      rw [hrest.2]
      simp only [List.append_assoc]

theorem traceFrom_zero (k : Nat) : traceFrom 0 k = completedTrace k := by
  simp [traceFrom, completedTrace]

/-- C10: for a job whose steps are all of type shell, `Job.Run` returns nil exactly
when every step is constructed and run without error, having then constructed and
run the steps one after the other in list order; and when the step at position `k`
is the first to fail, with error `e`, `Run` returns `e` after the calls for the
steps before `k` and for step `k` alone (its construction, and its run if the
construction succeeded): no later step is constructed or run. -/
theorem Job.Run_shell_sequential (w : ExecutorWorld) (j : Job)
    (hshell : ∀ s ∈ j.Ctx.Steps, s.StepType = "shell") :
    ((Job.Run w j).outcome = RunOutcome.returned none ↔
        ∀ i, i < j.Ctx.Steps.length → w.NewShellStep i = none ∧ w.runStep i = none) ∧
      ((∀ i, i < j.Ctx.Steps.length → w.NewShellStep i = none ∧ w.runStep i = none) →
        (Job.Run w j).trace = completedTrace j.Ctx.Steps.length) ∧
      (∀ k e, k < j.Ctx.Steps.length →
        (∀ i, i < k → w.NewShellStep i = none ∧ w.runStep i = none) →
        w.stepError k = some e →
        (Job.Run w j).outcome = RunOutcome.returned (some e) ∧
          (Job.Run w j).trace = completedTrace k ++
            (if w.NewShellStep k = none then [StepEvent.construct k, StepEvent.run k]
              else [StepEvent.construct k])) := by
  have hall : (∀ i, i < j.Ctx.Steps.length → w.NewShellStep i = none ∧ w.runStep i = none) →
      (Job.Run w j).outcome = RunOutcome.returned none ∧
        (Job.Run w j).trace = completedTrace j.Ctx.Steps.length := by
    intro h
    have := runLoop_all_ok w j.Ctx.Steps 0 j [] hshell
      (fun m hm => by rw [Nat.zero_add]; exact (stepError_eq_none w m).mpr (h m hm))
    simpa [Job.Run, traceFrom_zero] using this
  have hfirst : ∀ k e, k < j.Ctx.Steps.length →
      (∀ i, i < k → w.NewShellStep i = none ∧ w.runStep i = none) →
      w.stepError k = some e →
      (Job.Run w j).outcome = RunOutcome.returned (some e) ∧
        (Job.Run w j).trace = completedTrace k ++
          (if w.NewShellStep k = none then [StepEvent.construct k, StepEvent.run k]
            else [StepEvent.construct k]) := by
    intro k e hk hok hfail
    have := runLoop_first_failure w j.Ctx.Steps 0 j [] k e hshell hk
      (fun m hm => by rw [Nat.zero_add]; exact (stepError_eq_none w m).mpr (hok m hm))
      (by rwa [Nat.zero_add])
    simpa [Job.Run, traceFrom_zero] using this
  refine ⟨⟨?_, fun h => (hall h).1⟩, fun h => (hall h).2, hfirst⟩
  intro hnil
  by_contra hcon
  have hex : ∃ k, k < j.Ctx.Steps.length ∧ w.stepError k ≠ none := by
    by_contra hne
    apply hcon
    intro i hi
    apply (stepError_eq_none w i).mp
    by_contra hi2
    exact hne ⟨i, hi, hi2⟩
  classical
  let k := Nat.find hex
  have hk := Nat.find_spec hex
  have hmin : ∀ i, i < k → w.NewShellStep i = none ∧ w.runStep i = none := by
    intro i hi
    apply (stepError_eq_none w i).mp
    by_contra hi2
    exact Nat.find_min hex hi ⟨lt_trans hi hk.1, hi2⟩
  obtain ⟨e, he⟩ := Option.ne_none_iff_exists'.mp hk.2
  have := (hfirst k e hk.1 hmin he).1
  rw [hnil] at this
  simp at this

theorem Job.Run_shell_sequential_witness :
    (∀ s ∈ sampleExecutorJob.Ctx.Steps, s.StepType = "shell") ∧
      (Job.Run sampleExecutorWorld sampleExecutorJob).outcome =
        RunOutcome.returned (some "exit status 1") ∧
      (Job.Run sampleExecutorWorld sampleExecutorJob).trace = completedTrace 1 ++
        (if sampleExecutorWorld.NewShellStep 1 = none
          then [StepEvent.construct 1, StepEvent.run 1]
          else [StepEvent.construct 1]) :=
  ⟨by decide,
    (Job.Run_shell_sequential sampleExecutorWorld sampleExecutorJob (by decide)).2.2 1
      "exit status 1" (by decide)
      (fun i hi => by
        have h0 : i = 0 := by omega
        subst h0
        exact ⟨rfl, rfl⟩)
      rfl⟩

/-! ### Tool installation -/

theorem runIntallationScripts_trace (w : ToolInstallWorld) (s : ToolInstallStep)
    (spec : StepToolInstallSpec) (hs : s.spec = some spec) :
    (ToolInstallStep.runIntallationScripts w s).trace.countP IOEvent.isHttpDownload =
        (ToolInstallStep.resolve w spec).trace.countP IOEvent.isHttpDownload ∧
      (ToolInstallStep.runIntallationScripts w s).trace.countP IOEvent.isS3Upload =
        (ToolInstallStep.resolve w spec).trace.countP IOEvent.isS3Upload ∧
      (∀ e, (ToolInstallStep.resolve w spec).err = some e →
        (ToolInstallStep.runIntallationScripts w s).err = some e ∧
        (ToolInstallStep.runIntallationScripts w s).trace = (ToolInstallStep.resolve w spec).trace) := by
  simp only [ToolInstallStep.runIntallationScripts, hs]
  cases hr : (ToolInstallStep.resolve w spec).err with
  | some e => simp
  | none =>
    simp only
    split <;> simp [List.countP_append, List.countP_cons, IOEvent.isHttpDownload, IOEvent.isS3Upload]

/-- C9 (as the code behaves): for a tool-install step with a non-empty download URL,
(1) if the cache client is constructed and the cache fetch succeeds, no HTTP
download and no upload is made;
(2) if the cache fetch fails, exactly one HTTP download is made; when it succeeds
it is followed by exactly one cache-upload attempt, and when it fails the step
returns its error without any upload attempt;
(3) if the cache client cannot be constructed, exactly one HTTP download and no
upload is made;
(4) the outcome of the upload never changes what the step does or returns;
(5) the resolution phase returns an error only if the HTTP download was made and
failed, and the error is that of the download. -/
theorem ToolInstallStep.runIntallationScripts_resolution (w : ToolInstallWorld)
    (s : ToolInstallStep) (spec : StepToolInstallSpec)
    (hs : s.spec = some spec) (hd : spec.Download ≠ "") :
    (clientError w spec = none → cacheFetchError w spec = none →
        (ToolInstallStep.resolve w spec).err = none ∧
        (ToolInstallStep.runIntallationScripts w s).trace.countP IOEvent.isHttpDownload = 0 ∧
        (ToolInstallStep.runIntallationScripts w s).trace.countP IOEvent.isS3Upload = 0) ∧
      (clientError w spec = none → cacheFetchError w spec ≠ none → httpError w spec = none →
        (ToolInstallStep.resolve w spec).err = none ∧
        (ToolInstallStep.resolve w spec).trace =
          [IOEvent.s3NewClient spec.S3Storage.Endpoint (forcedPathStyle w spec),
            IOEvent.s3Download spec.S3Storage.Bucket (toolObjectKey w spec) (toolTmpPath w spec),
            IOEvent.httpDownload spec.Download (toolTmpPath w spec),
            IOEvent.s3Upload spec.S3Storage.Bucket (toolTmpPath w spec) (toolObjectKey w spec)] ∧
        (ToolInstallStep.runIntallationScripts w s).trace.countP IOEvent.isHttpDownload = 1 ∧
        (ToolInstallStep.runIntallationScripts w s).trace.countP IOEvent.isS3Upload = 1) ∧
      (∀ e, clientError w spec = none → cacheFetchError w spec ≠ none →
        httpError w spec = some e →
        (ToolInstallStep.runIntallationScripts w s).err = some e ∧
        (ToolInstallStep.runIntallationScripts w s).trace =
          [IOEvent.s3NewClient spec.S3Storage.Endpoint (forcedPathStyle w spec),
            IOEvent.s3Download spec.S3Storage.Bucket (toolObjectKey w spec) (toolTmpPath w spec),
            IOEvent.httpDownload spec.Download (toolTmpPath w spec)]) ∧
      (clientError w spec ≠ none →
        (ToolInstallStep.runIntallationScripts w s).trace.countP IOEvent.isHttpDownload = 1 ∧
        (ToolInstallStep.runIntallationScripts w s).trace.countP IOEvent.isS3Upload = 0 ∧
        (ToolInstallStep.resolve w spec).err = httpError w spec) ∧
      (∀ upload, ToolInstallStep.runIntallationScripts { w with s3Upload := upload } s =
        ToolInstallStep.runIntallationScripts w s) ∧
      (∀ e, (ToolInstallStep.resolve w spec).err = some e →
        httpError w spec = some e ∧
        (ToolInstallStep.resolve w spec).trace.countP IOEvent.isHttpDownload = 1 ∧
        (ToolInstallStep.runIntallationScripts w s).err = some e) := by
  obtain ⟨hhttp, hup, herr⟩ := runIntallationScripts_trace w s spec hs
  refine ⟨?_, ?_, ?_, ?_, ?_, ?_⟩
  · intro hc hf
    rw [hhttp, hup]
    simp [ToolInstallStep.resolve, hd, hc, hf, IOEvent.isHttpDownload, IOEvent.isS3Upload]
  · intro hc hf hh
    obtain ⟨e1, he1⟩ := Option.ne_none_iff_exists'.mp hf
    rw [hhttp, hup]
    simp [ToolInstallStep.resolve, hd, hc, he1, hh, IOEvent.isHttpDownload, IOEvent.isS3Upload]
  · intro e hc hf hh
    obtain ⟨e1, he1⟩ := Option.ne_none_iff_exists'.mp hf
    have hre : (ToolInstallStep.resolve w spec).err = some e := by
      simp [ToolInstallStep.resolve, hd, hc, he1, hh]
    obtain ⟨h1, h2⟩ := herr e hre
    refine ⟨h1, ?_⟩
    rw [h2]
    simp [ToolInstallStep.resolve, hd, hc, he1, hh]
  · intro hc
    obtain ⟨e1, he1⟩ := Option.ne_none_iff_exists'.mp hc
    rw [hhttp, hup]
    cases hh : httpError w spec <;>
      simp [ToolInstallStep.resolve, hd, he1, hh, IOEvent.isHttpDownload, IOEvent.isS3Upload]
  · intro upload
    rfl
  · intro e hre
    refine ⟨?_, ?_, (herr e hre).1⟩
    · simp only [ToolInstallStep.resolve, hd, ne_eq, not_false_eq_true, if_true] at hre
      cases hc : clientError w spec <;> cases hf : cacheFetchError w spec <;>
        cases hh : httpError w spec <;> simp_all
    · simp only [ToolInstallStep.resolve, hd, ne_eq, not_false_eq_true, if_true] at hre ⊢
      cases hc : clientError w spec <;> cases hf : cacheFetchError w spec <;>
        cases hh : httpError w spec <;> simp_all [IOEvent.isHttpDownload]

theorem ToolInstallStep.runIntallationScripts_resolution_witness :
    sampleToolStep.spec = some sampleToolSpec ∧ sampleToolSpec.Download ≠ "" ∧
      clientError (sampleToolWorld true false true) sampleToolSpec = none ∧
      cacheFetchError (sampleToolWorld true false true) sampleToolSpec ≠ none ∧
      httpError (sampleToolWorld true false true) sampleToolSpec = none ∧
      ((ToolInstallStep.resolve (sampleToolWorld true false true) sampleToolSpec).err = none ∧
        (ToolInstallStep.resolve (sampleToolWorld true false true) sampleToolSpec).trace =
          [IOEvent.s3NewClient sampleToolSpec.S3Storage.Endpoint
              (forcedPathStyle (sampleToolWorld true false true) sampleToolSpec),
            IOEvent.s3Download sampleToolSpec.S3Storage.Bucket
              (toolObjectKey (sampleToolWorld true false true) sampleToolSpec)
              (toolTmpPath (sampleToolWorld true false true) sampleToolSpec),
            IOEvent.httpDownload sampleToolSpec.Download
              (toolTmpPath (sampleToolWorld true false true) sampleToolSpec),
            IOEvent.s3Upload sampleToolSpec.S3Storage.Bucket
              (toolTmpPath (sampleToolWorld true false true) sampleToolSpec)
              (toolObjectKey (sampleToolWorld true false true) sampleToolSpec)] ∧
        (ToolInstallStep.runIntallationScripts (sampleToolWorld true false true)
          sampleToolStep).trace.countP IOEvent.isHttpDownload = 1 ∧
        (ToolInstallStep.runIntallationScripts (sampleToolWorld true false true)
          sampleToolStep).trace.countP IOEvent.isS3Upload = 1) :=
  ⟨rfl, by decide, rfl, by decide, rfl,
    (ToolInstallStep.runIntallationScripts_resolution (sampleToolWorld true false true)
      sampleToolStep sampleToolSpec rfl (by decide)).2.1 rfl (by decide) rfl⟩

/-- C9 (as stated) fails: in the sample world the cache client is constructed, the
cache fetch fails and the HTTP download fails; the step then returns the download
error after one HTTP download and no cache-upload attempt at all. -/
theorem ToolInstallStep.runIntallationScripts_counterexample :
    sampleToolSpec.Download ≠ "" ∧
      clientError (sampleToolWorld true true false) sampleToolSpec = none ∧
      cacheFetchError (sampleToolWorld true true false) sampleToolSpec ≠ none ∧
      (ToolInstallStep.runIntallationScripts (sampleToolWorld true true false)
        sampleToolStep).trace.countP IOEvent.isHttpDownload = 1 ∧
      (ToolInstallStep.runIntallationScripts (sampleToolWorld true true false)
        sampleToolStep).trace.countP IOEvent.isS3Upload = 0 ∧
      (ToolInstallStep.runIntallationScripts (sampleToolWorld true true false)
        sampleToolStep).err = some "404" := by
  refine ⟨by decide, rfl, by decide, by decide, by decide, by decide⟩

end Executor


/-! ### Task repository -/

theorem countP_gt_range (c : Nat) (t : Int) (ht : 0 ≤ t) :
    ((List.range c).map (fun (i : Nat) => (i : Int) + 1)).countP (fun x => decide (t < x)) =
      ((c : Int) - t).toNat := by
  induction c with
  | zero => simp; omega
  | succ c ih =>
    rw [List.range_succ, List.map_append, List.countP_append, ih]
    simp only [List.map_cons, List.map_nil, List.countP_cons, List.countP_nil, decide_eq_true_eq]
    split_ifs with h <;> push_cast <;> omega

theorem countP_larger_of_dense (coll : List TaskRecord) (workflowName : String)
    (hdense : ((coll.filter (TaskRecord.matchesWorkflow workflowName)).map (fun r => r.TaskID)).Perm
      ((List.range (countDocuments coll workflowName)).map (fun (i : Nat) => (i : Int) + 1)))
    (t : Int) (ht : 0 ≤ t) :
    coll.countP (fun other =>
        TaskRecord.matchesWorkflow workflowName other && decide (t < other.TaskID)) =
      ((countDocuments coll workflowName : Int) - t).toNat := by
  rw [← countP_gt_range _ t ht, ← hdense.countP_eq, List.countP_map, List.countP_filter]
  apply List.countP_congr
  intro r _
  simp [Bool.and_comm]

theorem archiveBound_exact (count : Nat) (remain : Int) (hremain : 0 ≤ remain)
    (hint : remain < 9223372036854775808) (hsize : (count : Int) < 9223372036854775807) :
    archiveBound count remain = (count : Int) - remain + 1 := by
  unfold archiveBound wrapInt64
  omega

/-- C11 (as the code behaves): when the driver calls succeed, the retain count is a
non-negative Go `int`, the workflow has fewer than `2^63 - 1` non-deleted tasks
and these carry exactly the task IDs 1, 2, ..., count,
`ArchiveHistoryWorkflowTask` marks archived every non-deleted task of the
workflow that is not among the `remain` ones with the largest task IDs, leaves
each of those `remain` most recent tasks as it was, and leaves every other
document of the collection as it was. -/
theorem ArchiveHistoryWorkflowTask_dense (driver : MongoDriver) (coll : List TaskRecord)
    (workflowName : String) (remain : Int)
    (hcount : driver.countError = none) (hupdate : driver.updateError = none)
    (hremain : 0 ≤ remain) (hint : remain < 9223372036854775808)
    (hsize : (countDocuments coll workflowName : Int) < 9223372036854775807)
    (hdense : ((coll.filter (TaskRecord.matchesWorkflow workflowName)).map (fun r => r.TaskID)).Perm
      ((List.range (countDocuments coll workflowName)).map (fun (i : Nat) => (i : Int) + 1))) :
    (ArchiveHistoryWorkflowTask driver coll workflowName remain).2 = none ∧
      (ArchiveHistoryWorkflowTask driver coll workflowName remain).1 =
        coll.map (archiveRecord workflowName
          (archiveBound (countDocuments coll workflowName) remain)) ∧
      (∀ r ∈ coll, TaskRecord.matchesWorkflow workflowName r = true →
        (amongMostRecent coll workflowName remain r = false →
          (archiveRecord workflowName
            (archiveBound (countDocuments coll workflowName) remain) r).IsArchived = true) ∧
        (amongMostRecent coll workflowName remain r = true →
          archiveRecord workflowName
            (archiveBound (countDocuments coll workflowName) remain) r = r)) ∧
      (∀ r ∈ coll, TaskRecord.matchesWorkflow workflowName r = false →
        archiveRecord workflowName
          (archiveBound (countDocuments coll workflowName) remain) r = r) := by
  have hbound := archiveBound_exact (countDocuments coll workflowName) remain hremain hint hsize
  refine ⟨?_, ?_, ?_, ?_⟩
  · simp [ArchiveHistoryWorkflowTask, hcount, hupdate]
  · simp [ArchiveHistoryWorkflowTask, hcount, hupdate]
  · intro r hr hm
    have hmem : r.TaskID ∈ (List.range (countDocuments coll workflowName)).map
        (fun (i : Nat) => (i : Int) + 1) := by
      rw [← hdense.mem_iff]
      exact List.mem_map.mpr ⟨r, List.mem_filter.mpr ⟨hr, hm⟩, rfl⟩
    obtain ⟨i, hi, hid⟩ := List.mem_map.mp hmem
    rw [List.mem_range] at hi
    have hpos : 0 ≤ r.TaskID := by omega
    have hlarger := countP_larger_of_dense coll workflowName hdense r.TaskID hpos
    rw [hbound]
    constructor
    · intro hnot
      simp only [amongMostRecent, hlarger, decide_eq_false_iff_not] at hnot
      have hlt : r.TaskID < (countDocuments coll workflowName : Int) - remain + 1 := by omega
      simp [archiveRecord, hm, hlt]
    · intro hamong
      simp only [amongMostRecent, hlarger, decide_eq_true_eq] at hamong
      have hlt : ¬ (r.TaskID < (countDocuments coll workflowName : Int) - remain + 1) := by omega
      simp [archiveRecord, hlt]
  · intro r _ hm
    simp [archiveRecord, hm]

theorem ArchiveHistoryWorkflowTask_dense_witness :
    (ArchiveHistoryWorkflowTask sampleDriver sampleDenseCollection "wf" 1).2 = none ∧
      (ArchiveHistoryWorkflowTask sampleDriver sampleDenseCollection "wf" 1).1 =
        sampleDenseCollection.map
          (archiveRecord "wf" (archiveBound (countDocuments sampleDenseCollection "wf") 1)) ∧
      (∀ r ∈ sampleDenseCollection, TaskRecord.matchesWorkflow "wf" r = true →
        (amongMostRecent sampleDenseCollection "wf" 1 r = false →
          (archiveRecord "wf"
            (archiveBound (countDocuments sampleDenseCollection "wf") 1) r).IsArchived = true) ∧
        (amongMostRecent sampleDenseCollection "wf" 1 r = true →
          archiveRecord "wf" (archiveBound (countDocuments sampleDenseCollection "wf") 1) r = r)) ∧
      (∀ r ∈ sampleDenseCollection, TaskRecord.matchesWorkflow "wf" r = false →
        archiveRecord "wf" (archiveBound (countDocuments sampleDenseCollection "wf") 1) r = r) :=
  ArchiveHistoryWorkflowTask_dense sampleDriver sampleDenseCollection "wf" 1 rfl rfl
    (by decide) (by decide) (by decide) (by decide)

/-- C11 (as stated) fails: in the sample collection the live tasks of `wf` have the
IDs 4, 5 and 6; with retain count 1 the call succeeds, task 4 is a non-deleted task
that is not the one with the largest ID, and it is not marked archived. -/
theorem ArchiveHistoryWorkflowTask_counterexample :
    TaskRecord.mk "wf" 4 false false ∈ sampleSparseCollection ∧
      amongMostRecent sampleSparseCollection "wf" 1 (TaskRecord.mk "wf" 4 false false) = false ∧
      (ArchiveHistoryWorkflowTask sampleDriver sampleSparseCollection "wf" 1).2 = none ∧
      TaskRecord.mk "wf" 4 false false ∈
        (ArchiveHistoryWorkflowTask sampleDriver sampleSparseCollection "wf" 1).1 ∧
      TaskRecord.mk "wf" 4 false true ∉
        (ArchiveHistoryWorkflowTask sampleDriver sampleSparseCollection "wf" 1).1 := by
  refine ⟨by decide, by decide, rfl, by decide, by decide⟩

/-! ### Status aggregation, continued -/

theorem pickStatus_passed (iter : List (Status × Int)) (hiter : iter.Perm statusMap)
    (code : Int) (h : pickStatus iter code = Status.passed) : code = 1 := by
  unfold pickStatus at h
  cases hf : iter.find? (fun p => decide (code = p.2)) with
  | none => rw [hf] at h; simp at h
  | some p =>
    rw [hf] at h
    simp only at h
    have hp := List.find?_some hf
    have hpm : p ∈ statusMap := hiter.mem_iff.mp (List.mem_of_find?_eq_some hf)
    simp only [decide_eq_true_eq] at hp
    simp only [statusMap, List.mem_cons, List.mem_singleton, List.not_mem_nil, or_false] at hpm
    rcases hpm with rfl | rfl | rfl | rfl | rfl <;> simp_all

theorem stageStatusCode_le_one (s : Status) (h : stageStatusCode s ≤ 1) :
    s ≠ Status.failed ∧ s ≠ Status.timeout ∧ s ≠ Status.cancelled := by
  refine ⟨?_, ?_, ?_⟩ <;> rintro rfl <;> revert h <;> decide

theorem stageStatusCode_eq_one (s : Status) (h : stageStatusCode s = 1) : s = Status.passed := by
  cases s with
  | passed => rfl
  | other tag =>
    have hcode : stageStatusCode (Status.other tag) = -1 := rfl
    rw [hcode] at h
    exact absurd h (by decide)
  | _ => revert h; decide

/-- C12 (as the code behaves): if `updateworkflowStatus` sets the workflow status to
Passed, then at least one stage is Passed and no stage is Failed, Timeout or
Cancelled; the other stages may be Skipped. -/
theorem updateworkflowStatus_passed (iter : List (Status × Int)) (workflow : WorkflowTask)
    (hiter : iter.Perm statusMap)
    (hpassed : (updateworkflowStatus iter workflow).Status = Status.passed) :
    (∃ j ∈ workflow.Stages, j.Status = Status.passed) ∧
      ∀ j ∈ workflow.Stages,
        j.Status ≠ Status.failed ∧ j.Status ≠ Status.timeout ∧ j.Status ≠ Status.cancelled := by
  have hcode : workflowStatusCodeLoop 0 0
      (workflow.Stages.map (fun j => stageStatusCode j.Status)) = 1 :=
    pickStatus_passed iter hiter _ hpassed
  have hne : workflow.Stages.map (fun j => stageStatusCode j.Status) ≠ [] := by
    intro hnil
    rw [hnil] at hcode
    simp [workflowStatusCodeLoop] at hcode
  obtain ⟨hm, hall⟩ := workflowStatusCodeLoop_max _ hne
  rw [hcode] at hm hall
  obtain ⟨j, hj, hjc⟩ := List.mem_map.mp hm
  refine ⟨⟨j, hj, stageStatusCode_eq_one _ hjc⟩, ?_⟩
  intro k hk
  exact stageStatusCode_le_one _ (hall _ (List.mem_map.mpr ⟨k, hk, rfl⟩))

theorem updateworkflowStatus_passed_witness :
    (∃ j ∈ [StageTask.mk "build" Status.passed, StageTask.mk "e2e" Status.skipped],
        j.Status = Status.passed) ∧
      ∀ j ∈ [StageTask.mk "build" Status.passed, StageTask.mk "e2e" Status.skipped],
        j.Status ≠ Status.failed ∧ j.Status ≠ Status.timeout ∧ j.Status ≠ Status.cancelled :=
  updateworkflowStatus_passed statusMap
    ⟨"wf", 7, Status.running,
      [StageTask.mk "build" Status.passed, StageTask.mk "e2e" Status.skipped]⟩
    (List.Perm.refl _) (by decide)

/-- C12 (as stated) fails: with the stages Passed and Skipped the workflow status is
set to Passed although one stage is not Passed. -/
theorem updateworkflowStatus_passed_counterexample :
    (updateworkflowStatus statusMap
        ⟨"wf", 7, Status.running,
          [StageTask.mk "build" Status.passed, StageTask.mk "e2e" Status.skipped]⟩).Status =
        Status.passed ∧
      ¬ (∀ j ∈ [StageTask.mk "build" Status.passed, StageTask.mk "e2e" Status.skipped],
        j.Status = Status.passed) := by
  refine ⟨by decide, by decide⟩

/-! ### Run registration -/

theorem lookup_registryStore_self (registry : CancelRegistry) (key : String)
    (value : RegistryValue) :
    (registryStore registry key value).lookup key = some value := by
  induction registry with
  | nil => simp [registryStore, List.lookup]
  | cons p rest ih =>
    obtain ⟨k, v⟩ := p
    unfold registryStore
    split_ifs with h
    · simp [List.lookup]
    · have hne : (key == k) = false := by
        rw [beq_eq_false_iff_ne]; exact fun hk => h hk.symm
      simp only [List.lookup, hne]
      exact ih

theorem lookup_registryStore_ne (registry : CancelRegistry) (key other : String)
    (value : RegistryValue) (hne : other ≠ key) :
    (registryStore registry key value).lookup other = registry.lookup other := by
  induction registry with
  | nil =>
    have h : (other == key) = false := by rw [beq_eq_false_iff_ne]; exact hne
    simp [registryStore, List.lookup, h]
  | cons p rest ih =>
    obtain ⟨k, v⟩ := p
    unfold registryStore
    split_ifs with h
    · subst h
      have h : (other == k) = false := by rw [beq_eq_false_iff_ne]; exact hne
      simp [List.lookup, h]
    · simp only [List.lookup]
      rw [ih]

/-- C13 (as the code behaves): after `workflowCtl.Run` has returned for a task, the
registration made at run start is still in the registry; its trigger has been
invoked once, by `Run` itself, and `CancelWorkflowTask` with the task's workflow
name and task ID returns success and invokes that trigger again. -/
theorem workflowCtl.Run_keeps_registration (w : ControllerWorld) (registry : CancelRegistry)
    (workflowTask : WorkflowTask) :
    (workflowCtl.Run w registry workflowTask).registry.lookup
        (cancelKey workflowTask.WorkflowName workflowTask.TaskID) =
        some (RegistryValue.cancelFunc w.freshTrigger) ∧
      (workflowCtl.Run w registry workflowTask).invoked = [w.freshTrigger] ∧
      (CancelWorkflowTask (workflowCtl.Run w registry workflowTask).registry
        workflowTask.WorkflowName workflowTask.TaskID).err = none ∧
      (CancelWorkflowTask (workflowCtl.Run w registry workflowTask).registry
        workflowTask.WorkflowName workflowTask.TaskID).invoked = [w.freshTrigger] := by
  have hl : (workflowCtl.Run w registry workflowTask).registry.lookup
      (cancelKey workflowTask.WorkflowName workflowTask.TaskID) =
      some (RegistryValue.cancelFunc w.freshTrigger) :=
    lookup_registryStore_self registry _ _
  refine ⟨hl, rfl, ?_, ?_⟩
  · simp only [CancelWorkflowTask, hl]
  · simp only [CancelWorkflowTask, hl]

/-- C13 (as stated) fails: after the sample run of task 3 of workflow `wf` has
returned, cancelling that task returns no error. -/
theorem workflowCtl.Run_counterexample :
    (workflowCtl.Run sampleControllerWorld sampleRegistry sampleWorkflowTask).workflowTask.Status =
        Status.passed ∧
      (CancelWorkflowTask
        (workflowCtl.Run sampleControllerWorld sampleRegistry sampleWorkflowTask).registry
        "wf" 3).err = none := by
  refine ⟨by decide, by decide⟩

/-! ### Registry keys -/

theorem digitChar_value (k : Nat) (hk : k < 10) : (Nat.digitChar k).toNat - 48 = k := by
  interval_cases k <;> rfl

theorem digitChar_ne_dash (k : Nat) (hk : k < 10) : Nat.digitChar k ≠ '-' := by
  interval_cases k <;> decide

theorem toDigitsCore_value (fuel : Nat) :
    ∀ (n : Nat) (ds : List Char), n < fuel →
      (Nat.toDigitsCore 10 fuel n ds).foldl (fun acc c => 10 * acc + (c.toNat - 48)) 0 =
        ds.foldl (fun acc c => 10 * acc + (c.toNat - 48)) n := by
  induction fuel with
  | zero => intro n ds h; omega
  | succ fuel ih =>
    intro n ds h
    simp only [Nat.toDigitsCore]
    split_ifs with h0
    · simp only [List.foldl_cons, Nat.mul_zero, Nat.zero_add]
      rw [digitChar_value _ (Nat.mod_lt _ (by decide))]
      congr 1
      omega
    · rw [ih (n / 10) _ (by omega)]
      simp only [List.foldl_cons]
      rw [digitChar_value _ (Nat.mod_lt _ (by decide))]
      congr 1
      omega

theorem toDigitsCore_no_dash (fuel : Nat) :
    ∀ (n : Nat) (ds : List Char), '-' ∉ ds → '-' ∉ Nat.toDigitsCore 10 fuel n ds := by
  induction fuel with
  | zero => intro n ds h; simpa [Nat.toDigitsCore] using h
  | succ fuel ih =>
    intro n ds h
    have hd : '-' ∉ Nat.digitChar (n % 10) :: ds := by
      simp only [List.mem_cons, not_or]
      exact ⟨fun hc => digitChar_ne_dash _ (Nat.mod_lt _ (by decide)) hc.symm, h⟩
    simp only [Nat.toDigitsCore]
    split_ifs with h0
    · exact hd
    · exact ih _ _ hd

theorem repr_injective (m n : Nat) (h : Nat.repr m = Nat.repr n) : m = n := by
  have hd : Nat.toDigits 10 m = Nat.toDigits 10 n := by
    have := congrArg String.data h
    simpa [Nat.repr] using this
  have hm := toDigitsCore_value (m + 1) m [] (by omega)
  have hn := toDigitsCore_value (n + 1) n [] (by omega)
  simp only [List.foldl_nil] at hm hn
  unfold Nat.toDigits at hd
  rw [← hm, ← hn, hd]

theorem split_at_last_dash (l1 l2 d1 d2 : List Char) (h1 : '-' ∉ d1) (h2 : '-' ∉ d2)
    (h : l1 ++ '-' :: d1 = l2 ++ '-' :: d2) : l1 = l2 ∧ d1 = d2 := by
  induction l1 generalizing l2 with
  | nil =>
    cases l2 with
    | nil => simpa using h
    | cons c l2 =>
      simp only [List.nil_append, List.cons_append, List.cons.injEq] at h
      exact absurd (h.2 ▸ (by simp : '-' ∈ l2 ++ '-' :: d2)) h1
  | cons c l1 ih =>
    cases l2 with
    | nil =>
      simp only [List.nil_append, List.cons_append, List.cons.injEq] at h
      exact absurd (h.2 ▸ (by simp : '-' ∈ l1 ++ '-' :: d1)) h2
    | cons c2 l2 =>
      simp only [List.cons_append, List.cons.injEq] at h
      obtain ⟨hl, hd⟩ := ih l2 h.2
      exact ⟨by rw [h.1, hl], hd⟩

theorem cancelKey_data (workflowName : String) (m : Nat) :
    (cancelKey workflowName (m : Int)).data = workflowName.data ++ '-' :: Nat.toDigits 10 m := by
  have hs : toString (m : Int) = Nat.repr m := rfl
  simp [cancelKey, hs, Nat.repr, String.data_append, List.asString]

theorem cancelKey_inj_nat (n1 n2 : String) (m1 m2 : Nat)
    (h : cancelKey n1 (m1 : Int) = cancelKey n2 (m2 : Int)) : n1 = n2 ∧ m1 = m2 := by
  have hd := congrArg String.data h
  rw [cancelKey_data, cancelKey_data] at hd
  obtain ⟨hn, hm⟩ := split_at_last_dash _ _ _ _
    (toDigitsCore_no_dash _ _ _ (by simp)) (toDigitsCore_no_dash _ _ _ (by simp)) hd
  refine ⟨String.ext hn, repr_injective m1 m2 ?_⟩
  simp only [Nat.repr, Nat.toDigits]
  rw [hm]

/-- C18: on pairs with non-negative task IDs the registry key `<name>-<id>` is
injective: equal keys imply equal workflow names and equal task IDs, whatever
characters the names contain; so storing a trigger under the key of one task
leaves what is stored under the key of any other task untouched. -/
theorem cancelKey_injective (n1 n2 : String) (id1 id2 : Int) (h1 : 0 ≤ id1) (h2 : 0 ≤ id2) :
    (cancelKey n1 id1 = cancelKey n2 id2 → n1 = n2 ∧ id1 = id2) ∧
      (¬ (n1 = n2 ∧ id1 = id2) → ∀ (registry : CancelRegistry) (value : RegistryValue),
        (registryStore registry (cancelKey n1 id1) value).lookup (cancelKey n2 id2) =
          registry.lookup (cancelKey n2 id2)) := by
  have hinj : cancelKey n1 id1 = cancelKey n2 id2 → n1 = n2 ∧ id1 = id2 := by
    intro h
    obtain ⟨m1, rfl⟩ := Int.eq_ofNat_of_zero_le h1
    obtain ⟨m2, rfl⟩ := Int.eq_ofNat_of_zero_le h2
    obtain ⟨hn, hm⟩ := cancelKey_inj_nat n1 n2 m1 m2 h
    exact ⟨hn, by rw [hm]⟩
  refine ⟨hinj, ?_⟩
  intro hne registry value
  exact lookup_registryStore_ne registry _ _ value (fun hk => hne (hinj hk.symm))

theorem cancelKey_injective_witness :
    (0 : Int) ≤ 12 ∧ (0 : Int) ≤ 2 ∧ ¬ ("wf-1" = "wf" ∧ (2 : Int) = 12) ∧
      (registryStore sampleRegistry (cancelKey "wf-1" 2) (RegistryValue.cancelFunc 40)).lookup
          (cancelKey "wf" 12) =
        sampleRegistry.lookup (cancelKey "wf" 12) :=
  ⟨by decide, by decide, by decide,
    (cancelKey_injective "wf-1" "wf" 2 12 (by decide) (by decide)).2 (by decide) sampleRegistry
      (RegistryValue.cancelFunc 40)⟩

/-! ### Presets and decode failures -/

/-- C15: for a testing job whose spec decodes, `SetPreset` returns no error whatever
test definitions are missing; the stored modules correspond one to one, in order,
to the decoded ones, with the same names: a module whose definition lookup fails
is left exactly as it was, and a module whose lookup succeeds gets the repos
merged from its definition and its key/values rendered against the definition's
environment. -/
theorem TestingJob.SetPreset_tolerant (env : TestingEnv) (j : TestingJob)
    (spec : ZadigTestingJobSpec) (hdec : env.IToiTesting j.job.Spec = Except.ok spec) :
    (TestingJob.SetPreset env j).2 = none ∧
      ∃ stored, (TestingJob.SetPreset env j).1.job.Spec = JobSpec.testing stored ∧
        stored.TestModules.length = spec.TestModules.length ∧
        List.Forall₂ (fun before after =>
          after.TestName = before.TestName ∧
          (∀ e, env.FindTesting before.TestName "" = Except.error e → after = before) ∧
          (∀ testingInfo, env.FindTesting before.TestName "" = Except.ok testingInfo →
            after.Repos = env.mergeRepos testingInfo.Repos before.Repos ∧
            after.KeyVals = env.renderKeyVals before.KeyVals testingInfo.PreTest.Envs))
          spec.TestModules stored.TestModules := by
  refine ⟨by simp only [TestingJob.SetPreset, hdec], ?_⟩
  refine ⟨{ spec with TestModules := spec.TestModules.map (TestingJob.presetModule env) }, ?_, ?_, ?_⟩
  · simp only [TestingJob.SetPreset, hdec, TestingJob.store]
  · simp
  · simp only
    rw [List.forall₂_map_right_iff, List.forall₂_same]
    intro testing _
    refine ⟨?_, ?_, ?_⟩
    · unfold TestingJob.presetModule
      split <;> rfl
    · intro e he
      simp only [TestingJob.presetModule, he]
    · intro testingInfo hinfo
      simp only [TestingJob.presetModule, hinfo, and_self]

theorem TestingJob.SetPreset_tolerant_witness :
    (TestingJob.SetPreset sampleTestingEnvWithMissing sampleTestingJob).2 = none ∧
      ∃ stored, (TestingJob.SetPreset sampleTestingEnvWithMissing sampleTestingJob).1.job.Spec =
          JobSpec.testing stored ∧
        stored.TestModules.length =
          [TestModule.mk "unit" [] [⟨"K", "v", false⟩], TestModule.mk "smoke" [] []].length ∧
        List.Forall₂ (fun before after =>
          after.TestName = before.TestName ∧
          (∀ e, sampleTestingEnvWithMissing.FindTesting before.TestName "" = Except.error e →
            after = before) ∧
          (∀ testingInfo,
            sampleTestingEnvWithMissing.FindTesting before.TestName "" = Except.ok testingInfo →
            after.Repos = sampleTestingEnvWithMissing.mergeRepos testingInfo.Repos before.Repos ∧
            after.KeyVals =
              sampleTestingEnvWithMissing.renderKeyVals before.KeyVals testingInfo.PreTest.Envs))
          [TestModule.mk "unit" [] [⟨"K", "v", false⟩], TestModule.mk "smoke" [] []]
          stored.TestModules :=
  TestingJob.SetPreset_tolerant sampleTestingEnvWithMissing sampleTestingJob
    { TestModules := [⟨"unit", [], [⟨"K", "v", false⟩]⟩, ⟨"smoke", [], []⟩] } rfl

theorem DeployJob.jobsLoop_appends (env : DeployEnv) (jobs : List Job) :
    ∀ (spec : ZadigDeployJobSpec), ∃ appended,
      (DeployJob.jobsLoop env jobs spec).1 =
        { spec with ServiceAndImages := spec.ServiceAndImages ++ appended } := by
  induction jobs with
  | nil => intro spec; exact ⟨[], by simp [DeployJob.jobsLoop]⟩
  | cons job rest ih =>
    intro spec
    simp only [DeployJob.jobsLoop]
    split_ifs with hskip
    · exact ih spec
    · cases hb : env.IToiBuild job.Spec with
      | error e => exact ⟨[], by simp⟩
      | ok buildSpec =>
        obtain ⟨appended, happ⟩ := ih (DeployJob.appendBuilds spec buildSpec.ServiceAndBuilds)
        refine ⟨buildSpec.ServiceAndBuilds.map (fun build =>
          ServiceAndImage.mk build.ServiceName build.ServiceModule build.Image) ++ appended, ?_⟩
        rw [happ]
        simp only [DeployJob.appendBuilds, List.append_assoc]

theorem DeployJob.stagesLoop_appends (env : DeployEnv) (stages : List WorkflowStage) :
    ∀ (spec : ZadigDeployJobSpec), ∃ appended,
      (DeployJob.stagesLoop env stages spec).1 =
        { spec with ServiceAndImages := spec.ServiceAndImages ++ appended } := by
  induction stages with
  | nil => intro spec; exact ⟨[], by simp [DeployJob.stagesLoop]⟩
  | cons stage rest ih =>
    intro spec
    obtain ⟨a1, h1⟩ := DeployJob.jobsLoop_appends env stage.Jobs spec
    simp only [DeployJob.stagesLoop]
    cases hj : DeployJob.jobsLoop env stage.Jobs spec with
    | mk spec1 err =>
      rw [hj] at h1
      simp only at h1
      cases err with
      | some e => exact ⟨a1, h1⟩
      | none =>
        obtain ⟨a2, h2⟩ := ih spec1
        refine ⟨a1 ++ a2, ?_⟩
        simp only [h2]
        subst h1
        simp only [List.append_assoc]

/-- C14 (as the code behaves): whenever decoding the job's own spec fails, each of
`Instantiate`, `SetPreset`, `ToJobs` of both jobs and `MergeArgs` of the testing
job returns that error and leaves the stored Spec as it was.  When the override
job's spec fails to decode, `TestingJob.MergeArgs` returns that error and the
stored Spec is the decoded spec of the job, nothing merged.  When an upstream
build job's spec fails to decode, `DeployJob.ToJobs` returns that error and no
task, and the stored Spec is the decoded spec of the job followed by the
service/image entries appended from the upstream jobs read before. -/
theorem decode_failure_effects (envT : TestingEnv) (envD : DeployEnv) (catalog : DeployCatalog)
    (yamlT : JobSpec → Except Error ZadigTestingJobSpec)
    (yamlD : JobSpec → Except Error ZadigDeployJobSpec)
    (jT : TestingJob) (jD : DeployJob) (args : Job) (taskID : Int) (e : Error) :
    (yamlT jT.job.Spec = Except.error e →
        (TestingJob.Instantiate yamlT jT).2 = some e ∧
        (TestingJob.Instantiate yamlT jT).1.job.Spec = jT.job.Spec) ∧
      (envT.IToiTesting jT.job.Spec = Except.error e →
        ((TestingJob.SetPreset envT jT).2 = some e ∧
          (TestingJob.SetPreset envT jT).1.job.Spec = jT.job.Spec) ∧
        ((TestingJob.ToJobs envT jT taskID).err = some e ∧
          (TestingJob.ToJobs envT jT taskID).receiver.job.Spec = jT.job.Spec) ∧
        (jT.job.Name = args.Name ∧ jT.job.JobType = args.JobType →
          (TestingJob.MergeArgs envT jT args).2 = some e ∧
          (TestingJob.MergeArgs envT jT args).1.job.Spec = jT.job.Spec)) ∧
      (∀ spec, jT.job.Name = args.Name ∧ jT.job.JobType = args.JobType →
        envT.IToiTesting jT.job.Spec = Except.ok spec →
        envT.IToiTesting args.Spec = Except.error e →
        (TestingJob.MergeArgs envT jT args).2 = some e ∧
        (TestingJob.MergeArgs envT jT args).1.job.Spec = JobSpec.testing spec) ∧
      (yamlD jD.job.Spec = Except.error e →
        (DeployJob.Instantiate yamlD jD).2 = some e ∧
        (DeployJob.Instantiate yamlD jD).1.job.Spec = jD.job.Spec) ∧
      (envD.IToiDeploy jD.job.Spec = Except.error e →
        ((DeployJob.SetPreset envD catalog jD).2 = some e ∧
          (DeployJob.SetPreset envD catalog jD).1.job.Spec = jD.job.Spec) ∧
        ((DeployJob.ToJobs envD jD taskID).err = some e ∧
          (DeployJob.ToJobs envD jD taskID).receiver.job.Spec = jD.job.Spec)) ∧
      (∀ spec0 product spec1, envD.IToiDeploy jD.job.Spec = Except.ok spec0 →
        envD.FindProduct jD.workflow.Project spec0.Env = Except.ok product →
        DeployJob.resolveUpstream envD jD.workflow spec0 = (spec1, some e) →
        (DeployJob.ToJobs envD jD taskID).err = some e ∧
        (DeployJob.ToJobs envD jD taskID).resp = [] ∧
        (DeployJob.ToJobs envD jD taskID).receiver.job.Spec = JobSpec.deploy spec1 ∧
        ∃ appended, spec1 =
          { spec0 with ServiceAndImages := spec0.ServiceAndImages ++ appended }) := by
  refine ⟨?_, ?_, ?_, ?_, ?_, ?_⟩
  · intro h
    simp only [TestingJob.Instantiate, h, and_self]
  · intro h
    refine ⟨?_, ?_, ?_⟩
    · simp only [TestingJob.SetPreset, h, and_self]
    · simp only [TestingJob.ToJobs, h, and_self]
    · intro hmatch
      simp only [TestingJob.MergeArgs, hmatch, and_self, if_true, h]
  · intro spec hmatch hown hargs
    simp only [TestingJob.MergeArgs, hmatch, and_self, if_true, hown, hargs, TestingJob.store]
  · intro h
    simp only [DeployJob.Instantiate, h, and_self]
  · intro h
    refine ⟨?_, ?_⟩
    · simp only [DeployJob.SetPreset, h, and_self]
    · simp only [DeployJob.ToJobs, h, and_self]
  · intro spec0 product spec1 hdec hprod hup
    refine ⟨?_, ?_, ?_, ?_⟩
    · simp only [DeployJob.ToJobs, hdec, hprod, hup]
    · simp only [DeployJob.ToJobs, hdec, hprod, hup]
    · simp only [DeployJob.ToJobs, hdec, hprod, hup, DeployJob.store]
    · unfold DeployJob.resolveUpstream at hup
      split_ifs at hup
      · obtain ⟨appended, happ⟩ := DeployJob.stagesLoop_appends envD jD.workflow.Stages spec0
        rw [hup] at happ
        exact ⟨appended, happ⟩
      · simp at hup

theorem decode_failure_effects_witness :
    (DeployJob.ToJobs sampleDeployEnv
        { sampleDeployJob K8SDeployType SourceFromJob with workflow := sampleWorkflowBrokenUpstream }
        1).err = some "cannot decode build spec" ∧
      (DeployJob.ToJobs sampleDeployEnv
        { sampleDeployJob K8SDeployType SourceFromJob with workflow := sampleWorkflowBrokenUpstream }
        1).resp = [] ∧
      (DeployJob.ToJobs sampleDeployEnv
        { sampleDeployJob K8SDeployType SourceFromJob with workflow := sampleWorkflowBrokenUpstream }
        1).receiver.job.Spec = JobSpec.deploy
          { Env := "dev", DeployType := K8SDeployType, Source := SourceFromJob, JobName := "build"
            ServiceAndImages := sampleServiceAndImages ++ [⟨"C", "m1", "c-m1:9"⟩] } ∧
      ∃ appended,
        ({ Env := "dev", DeployType := K8SDeployType, Source := SourceFromJob, JobName := "build"
           ServiceAndImages := sampleServiceAndImages ++ [⟨"C", "m1", "c-m1:9"⟩] } :
            ZadigDeployJobSpec) =
          { Env := "dev", DeployType := K8SDeployType, Source := SourceFromJob, JobName := "build"
            ServiceAndImages := sampleServiceAndImages ++ appended } :=
  (decode_failure_effects sampleTestingEnv sampleDeployEnv sampleDeployCatalog sampleIToiTesting
    sampleIToiDeploy sampleTestingJob
    { sampleDeployJob K8SDeployType SourceFromJob with workflow := sampleWorkflowBrokenUpstream }
    sampleTestingJob.job 1 "cannot decode build spec").2.2.2.2.2
    { Env := "dev", DeployType := K8SDeployType, Source := SourceFromJob, JobName := "build"
      ServiceAndImages := sampleServiceAndImages }
    ⟨"c1"⟩
    { Env := "dev", DeployType := K8SDeployType, Source := SourceFromJob, JobName := "build"
      ServiceAndImages := sampleServiceAndImages ++ [⟨"C", "m1", "c-m1:9"⟩] }
    rfl rfl (by decide)

/-- C14 (as stated) fails: the sample deploy job reads two upstream build jobs; the
first decodes and the second does not; `ToJobs` returns the decode error, and the
stored Spec, which held three service/image entries before the call, holds a
fourth one, appended from the first upstream job. -/
theorem decode_failure_counterexample :
    (sampleDeployJob K8SDeployType SourceFromJob).job.Spec = JobSpec.deploy
        { Env := "dev", DeployType := K8SDeployType, Source := SourceFromJob, JobName := "build"
          ServiceAndImages := sampleServiceAndImages } ∧
      (DeployJob.ToJobs sampleDeployEnv
        { sampleDeployJob K8SDeployType SourceFromJob with workflow := sampleWorkflowBrokenUpstream }
        1).err = some "cannot decode build spec" ∧
      (DeployJob.ToJobs sampleDeployEnv
        { sampleDeployJob K8SDeployType SourceFromJob with workflow := sampleWorkflowBrokenUpstream }
        1).receiver.job.Spec = JobSpec.deploy
          { Env := "dev", DeployType := K8SDeployType, Source := SourceFromJob, JobName := "build"
            ServiceAndImages := sampleServiceAndImages ++ [⟨"C", "m1", "c-m1:9"⟩] } ∧
      (DeployJob.ToJobs sampleDeployEnv
        { sampleDeployJob K8SDeployType SourceFromJob with workflow := sampleWorkflowBrokenUpstream }
        1).receiver.job.Spec ≠ (sampleDeployJob K8SDeployType SourceFromJob).job.Spec := by
  refine ⟨rfl, by decide, by decide, by decide⟩

/-! ### Environment of a compiled testing task -/

theorem TestingJob.properties_envs (env : TestingEnv) (workflow : WorkflowV4) (taskID : Int)
    (testing : TestModule) (testingInfo : Testing) (basicImage : BasicImage)
    (registries : List String) (clusterInfo : K8SCluster) :
    (TestingJob.properties env workflow taskID testing testingInfo basicImage registries
      clusterInfo).Envs =
      env.renderKeyVals testing.KeyVals testingInfo.PreTest.Envs ++
        getTestingJobVariables env testing.Repos taskID workflow.Project workflow.Name := by
  unfold TestingJob.properties
  simp only
  split_ifs <;> rfl

theorem TestingJob.compileModule_envs (env : TestingEnv) (jobName : String) (workflow : WorkflowV4)
    (taskID : Int) (defaultS3 : S3Storage) (call : Nat) (testing : TestModule) (task : JobTask)
    (h : TestingJob.compileModule env jobName workflow taskID defaultS3 call testing =
      Except.ok task) :
    ∃ testingInfo freestyle, env.FindTesting testing.TestName "" = Except.ok testingInfo ∧
      task.Spec = JobTaskSpec.freestyle freestyle ∧
      freestyle.Properties.Envs =
        env.renderKeyVals testing.KeyVals testingInfo.PreTest.Envs ++
          getTestingJobVariables env testing.Repos taskID workflow.Project workflow.Name := by
  unfold TestingJob.compileModule at h
  cases hfind : env.FindTesting testing.TestName "" with
  | error e => rw [hfind] at h; simp at h
  | ok testingInfo =>
    rw [hfind] at h
    simp only at h
    cases himg : env.FindBasicImage testingInfo.PreTest.ImageID with
    | error e => rw [himg] at h; simp at h
    | ok basicImage =>
      rw [himg] at h
      simp only at h
      cases hreg : env.ListRegistryNamespaces with
      | error e => rw [hreg] at h; simp at h
      | ok registries =>
        rw [hreg] at h
        simp only at h
        cases hcl : env.GetCluster testingInfo.PreTest.ClusterID with
        | error e => rw [hcl] at h; simp at h
        | ok clusterInfo =>
          rw [hcl] at h
          simp only [Except.ok.injEq] at h
          subst h
          exact ⟨testingInfo, _, rfl, rfl, TestingJob.properties_envs _ _ _ _ _ _ _ _⟩

theorem TestingJob.compileModule_envsAsSpecified (env : TestingEnv) (jobName : String)
    (workflow : WorkflowV4) (taskID : Int) (defaultS3 : S3Storage) (call : Nat)
    (testing : TestModule) (task : JobTask)
    (h : TestingJob.compileModule env jobName workflow taskID defaultS3 call testing =
      Except.ok task) :
    TestingJob.EnvsAsSpecified env workflow taskID testing task := by
  obtain ⟨testingInfo, freestyle, hfind, hspec, henvs⟩ :=
    TestingJob.compileModule_envs env jobName workflow taskID defaultS3 call testing task h
  refine ⟨testingInfo, freestyle, hfind, hspec, ?_⟩
  rw [henvs, getTestingJobVariables, List.append_assoc]

theorem TestingJob.modulesLoop_envs (env : TestingEnv) (jobName : String) (workflow : WorkflowV4)
    (taskID : Int) (defaultS3 : S3Storage) (modules : List TestModule) :
    ∀ (call : Nat) (resp : List JobTask), ∃ tasks,
      (TestingJob.modulesLoop env jobName workflow taskID defaultS3 call modules resp).1 =
          resp ++ tasks ∧
        List.Forall₂ (TestingJob.EnvsAsSpecified env workflow taskID)
          (modules.take tasks.length) tasks ∧
        ((TestingJob.modulesLoop env jobName workflow taskID defaultS3 call modules resp).2 = none →
          tasks.length = modules.length) := by
  induction modules with
  | nil =>
    intro call resp
    exact ⟨[], by simp [TestingJob.modulesLoop], by simp, fun _ => rfl⟩
  | cons testing rest ih =>
    intro call resp
    simp only [TestingJob.modulesLoop]
    cases hc : TestingJob.compileModule env jobName workflow taskID defaultS3 call testing with
    | error e =>
      exact ⟨[], by simp, by simp, fun h => by simp at h⟩
    | ok jobTask =>
      obtain ⟨tasks, hresp, hall, hlen⟩ := ih (call + 1) (resp ++ [jobTask])
      refine ⟨jobTask :: tasks, ?_, ?_, ?_⟩
      · simp only [hresp, List.append_assoc, List.singleton_append]
      · simp only [List.length_cons, List.take_succ_cons]
        exact List.Forall₂.cons
          (TestingJob.compileModule_envsAsSpecified env jobName workflow taskID defaultS3 call
            testing jobTask hc) hall
      · intro hnone
        simp only [List.length_cons, hlen hnone]

/-- C16: when the job's spec decodes, the tasks `TestingJob.ToJobs` returns
correspond, position by position, to the first test modules of the spec (to all
of them when no error is returned), and the environment variable list of each
task is, for its own module, the custom key/values rendered against the test
definition's environment, followed by the source-repo variables of the module,
followed by exactly the six entries TASK_ID (the decimal task ID), PROJECT,
WORKFLOW, CI = true, ZADIG = true and BUILD_URL = `<system
address>/v1/projects/detail/<project>/pipelines/custom/<workflow name>/<task ID>`,
in this order, none of them marked as a credential. -/
theorem TestingJob.ToJobs_envs (env : TestingEnv) (j : TestingJob) (taskID : Int)
    (spec : ZadigTestingJobSpec) (hdec : env.IToiTesting j.job.Spec = Except.ok spec) :
    List.Forall₂ (fun testing task =>
        ∃ testingInfo freestyle, env.FindTesting testing.TestName "" = Except.ok testingInfo ∧
          task.Spec = JobTaskSpec.freestyle freestyle ∧
          freestyle.Properties.Envs =
            env.renderKeyVals testing.KeyVals testingInfo.PreTest.Envs ++
              env.getReposVariables testing.Repos ++
              [ { Key := "TASK_ID", Value := toString taskID, IsCredential := false },
                { Key := "PROJECT", Value := j.workflow.Project, IsCredential := false },
                { Key := "WORKFLOW", Value := j.workflow.Name, IsCredential := false },
                { Key := "CI", Value := "true", IsCredential := false },
                { Key := "ZADIG", Value := "true", IsCredential := false },
                { Key := "BUILD_URL",
                  Value := env.SystemAddress ++ "/v1/projects/detail/" ++ j.workflow.Project ++
                    "/pipelines/custom/" ++ j.workflow.Name ++ "/" ++ toString taskID,
                  IsCredential := false } ])
        (spec.TestModules.take (TestingJob.ToJobs env j taskID).resp.length)
        (TestingJob.ToJobs env j taskID).resp ∧
      ((TestingJob.ToJobs env j taskID).err = none →
        (TestingJob.ToJobs env j taskID).resp.length = spec.TestModules.length) := by
  cases hs3 : env.FindDefaultS3 with
  | error e =>
    simp [TestingJob.ToJobs, hdec, hs3]
  | ok defaultS3 =>
    obtain ⟨tasks, hresp, hall, hlen⟩ := TestingJob.modulesLoop_envs env j.job.Name j.workflow
      taskID defaultS3 spec.TestModules 0 []
    simp only [List.nil_append] at hresp
    cases hl : TestingJob.modulesLoop env j.job.Name j.workflow taskID defaultS3 0
        spec.TestModules [] with
    | mk resp err =>
      rw [hl] at hresp hlen
      simp only at hresp hlen
      subst hresp
      have hr : (TestingJob.ToJobs env j taskID).resp = resp := by
        simp only [TestingJob.ToJobs, hdec, hs3, hl]
        cases err <;> rfl
      have he : (TestingJob.ToJobs env j taskID).err = err := by
        simp only [TestingJob.ToJobs, hdec, hs3, hl]
        cases err <;> rfl
      rw [hr, he]
      exact ⟨hall, hlen⟩

theorem TestingJob.ToJobs_envs_witness :
    List.Forall₂ (fun testing task =>
        ∃ testingInfo freestyle,
          sampleTestingEnv.FindTesting testing.TestName "" = Except.ok testingInfo ∧
          task.Spec = JobTaskSpec.freestyle freestyle ∧
          freestyle.Properties.Envs =
            sampleTestingEnv.renderKeyVals testing.KeyVals testingInfo.PreTest.Envs ++
              sampleTestingEnv.getReposVariables testing.Repos ++
              [ { Key := "TASK_ID", Value := toString (7 : Int), IsCredential := false },
                { Key := "PROJECT", Value := sampleTestingJob.workflow.Project,
                  IsCredential := false },
                { Key := "WORKFLOW", Value := sampleTestingJob.workflow.Name,
                  IsCredential := false },
                { Key := "CI", Value := "true", IsCredential := false },
                { Key := "ZADIG", Value := "true", IsCredential := false },
                { Key := "BUILD_URL",
                  Value := sampleTestingEnv.SystemAddress ++ "/v1/projects/detail/" ++
                    sampleTestingJob.workflow.Project ++ "/pipelines/custom/" ++
                    sampleTestingJob.workflow.Name ++ "/" ++ toString (7 : Int),
                  IsCredential := false } ])
        ([TestModule.mk "unit" [] [⟨"K", "v", false⟩], TestModule.mk "smoke" [] []].take
          (TestingJob.ToJobs sampleTestingEnv sampleTestingJob 7).resp.length)
        (TestingJob.ToJobs sampleTestingEnv sampleTestingJob 7).resp ∧
      ((TestingJob.ToJobs sampleTestingEnv sampleTestingJob 7).err = none →
        (TestingJob.ToJobs sampleTestingEnv sampleTestingJob 7).resp.length =
          [TestModule.mk "unit" [] [⟨"K", "v", false⟩], TestModule.mk "smoke" [] []].length) :=
  TestingJob.ToJobs_envs sampleTestingEnv sampleTestingJob 7
    { TestModules := [⟨"unit", [], [⟨"K", "v", false⟩]⟩, ⟨"smoke", [], []⟩] } rfl

/-! ### Listing Nacos configs -/

theorem Nacos.listLoop_stuck (toLower : String → String) (get : Nacos.ConfigEndpoint)
    (namespaceID : String) (pageItems : List Nacos.ConfigItem)
    (hget : get 1 20 namespaceID = Except.ok pageItems) (hfull : ¬ pageItems.length < 20) :
    ∀ (fuel : Nat) (resp : List Nacos.NacosConfig) (requests : List Nat),
      (Nacos.Client.listLoop toLower get namespaceID fuel 1 resp requests).outcome = none ∧
        (Nacos.Client.listLoop toLower get namespaceID fuel 1 resp requests).requests =
          requests ++ List.replicate fuel 1 := by
  intro fuel
  induction fuel with
  | zero =>
    intro resp requests
    simp [Nacos.Client.listLoop]
  | succ fuel ih =>
    intro resp requests
    simp only [Nacos.Client.listLoop, hget, if_neg hfull]
    obtain ⟨h1, h2⟩ := ih (resp ++ pageItems.map (Nacos.toNacosConfig toLower)) (requests ++ [1])
    refine ⟨h1, ?_⟩
    rw [h2, List.append_assoc, List.replicate_succ]
    rfl

/-- C17 fails on the code: against a server that answers every page request
correctly over a namespace of 20 configs, `ListConfigs` has not returned after
any number of loop iterations, and every request it made asked for page 1. -/
theorem Nacos.Client.ListConfigs_never_returns (toLower : String → String) (fuel : Nat) :
    (Nacos.sampleConfigs 20).length = 20 ∧
      (Nacos.Client.ListConfigs toLower (Nacos.pagedServer (fun _ => Nacos.sampleConfigs 20)) "ns"
        fuel).outcome = none ∧
      (Nacos.Client.ListConfigs toLower (Nacos.pagedServer (fun _ => Nacos.sampleConfigs 20)) "ns"
        fuel).requests = List.replicate fuel 1 := by
  have hlen : (Nacos.sampleConfigs 20).length = 20 := by simp [Nacos.sampleConfigs]
  have hget : Nacos.pagedServer (fun _ => Nacos.sampleConfigs 20) 1 20 "ns" =
      Except.ok (Nacos.sampleConfigs 20) := by
    simp only [Nacos.pagedServer, Nat.sub_self, Nat.zero_mul, List.drop_zero]
    rw [List.take_of_length_le (by rw [hlen])]
  obtain ⟨h1, h2⟩ := Nacos.listLoop_stuck toLower _ "ns" _ hget (by rw [hlen]; decide) fuel [] []
  exact ⟨hlen, h1, by simpa [Nacos.Client.ListConfigs] using h2⟩

/-! ### Steps of another type -/

/-- C19 fails on the code: for the sample job, whose first step has type `tools`,
the switch of `Job.Run` matches no case, `stepInstance` stays nil and `Run` is
invoked on it: the call ends in a nil dereference instead of returning, before
any step is constructed. -/
theorem Executor.Job.Run_non_shell_step :
    (Executor.sampleToolsFirstJob.Ctx.Steps.map (fun s => s.StepType)) = ["tools", "shell"] ∧
      (Executor.Job.Run Executor.sampleExecutorWorld Executor.sampleToolsFirstJob).outcome =
        Executor.RunOutcome.nilDereference ∧
      (Executor.Job.Run Executor.sampleExecutorWorld Executor.sampleToolsFirstJob).trace = [] := by
  refine ⟨by decide, by decide, by decide⟩

end Zadig
